import Mathlib

/-!
Verification development for the linera quiz / pixel-chain repository.

The quiz application (directory src) and the pixel-chain application
(directory pixel-chain) are modelled as pure state-transition functions.
All mutations of the on-chain views are made explicit: the view maps
become total functions into Option (or into lists with empty default,
matching the unwrap_or_default calls in the contract), the log views
become lists, and the register views become plain fields.  Timestamps
are natural numbers counting microseconds, exactly as in the runtime;
millisecond inputs are multiplied by 1000 by create_quiz as in the code.
An operation returns the post state together with an optional error: the
contract ABI returns the error as an ordinary response value, so state
changes performed before the error-returning line persist, which the
model reproduces by returning the state reached at the error point.
-/

namespace Quiz

/-- Question record stored inside a QuizSet, from state.rs. -/
structure Question where
  id : String
  text : String
  options : List String
  correct_options : List Nat
  points : Nat
  question_type : String
deriving DecidableEq, Repr

/-- User record, from state.rs. -/
structure User where
  wallet_address : String
  nickname : String
  created_at : Nat
deriving DecidableEq, Repr

/-- Quiz participation mode, from state.rs. -/
inductive QuizMode where
  | Public
  | Registration
deriving DecidableEq, Repr

/-- Quiz start mode, from state.rs. -/
inductive QuizStartMode where
  | Auto
  | Manual
deriving DecidableEq, Repr

/-- Quiz record, from state.rs. -/
structure QuizSet where
  id : Nat
  title : String
  description : String
  creator : String
  creator_nickname : String
  questions : List Question
  time_limit : Nat
  start_time : Nat
  end_time : Nat
  created_at : Nat
  mode : QuizMode
  start_mode : QuizStartMode
  is_started : Bool
  registered_users : List String
  participant_count : Nat
deriving DecidableEq, Repr

/-- Attempt record, from state.rs. -/
structure UserAttempt where
  quiz_id : Nat
  user : String
  nickname : String
  answers : List (List Nat)
  score : Nat
  time_taken : Nat
  completed_at : Nat
deriving DecidableEq, Repr

/-- Leaderboard entry, from lib.rs. -/
structure LeaderboardEntry where
  user : String
  score : Nat
  time_taken : Nat
deriving DecidableEq, Repr

/-- Error taxonomy, from lib.rs. -/
inductive QuizError where
  | NicknameAlreadyTaken
  | InvalidQuizMode
  | InvalidStartMode
  | QuizNotStarted
  | UserAlreadyAttempted
  | UserNotRegistered
  | UserAlreadyRegistered
  | QuizNotFound
  | UserNotFound
  | InsufficientPermissions
  | InvalidParameters
  | InternalError
deriving DecidableEq, Repr

/-- Parameters of the SetNickname operation, from lib.rs. -/
structure SetNicknameParams where
  nickname : String
deriving DecidableEq, Repr

/-- Parameters describing one question at creation time, from lib.rs. -/
structure QuestionParams where
  text : String
  options : List String
  correct_options : List Nat
  points : Nat
  question_type : String
  id : String
deriving DecidableEq, Repr

/-- Parameters of the CreateQuiz operation, from lib.rs.  The start and
end times are millisecond timestamp strings. -/
structure CreateQuizParams where
  title : String
  description : String
  questions : List QuestionParams
  time_limit : Nat
  start_time : String
  end_time : String
  nickname : String
  mode : String
  start_mode : String
deriving DecidableEq, Repr

/-- One submitted answer: a question id and the selected option indexes,
from lib.rs. -/
structure AnswerOption where
  question_id : String
  selected_answers : List Nat
deriving DecidableEq, Repr

/-- Parameters of the SubmitAnswers operation, from lib.rs. -/
structure SubmitAnswersParams where
  quiz_id : Nat
  answers : List AnswerOption
  time_taken : Nat
  nickname : String
deriving DecidableEq, Repr

/-- The operation surface of the quiz contract, from lib.rs. -/
inductive Operation where
  | SetNickname (params : SetNicknameParams)
  | CreateQuiz (params : CreateQuizParams)
  | SubmitAnswers (params : SubmitAnswersParams)
  | StartQuiz (quiz_id : Nat)
  | RegisterForQuiz (quiz_id : Nat)
deriving DecidableEq, Repr

/-- Cross-chain message surface of the quiz contract, from lib.rs.
Chain ids are modelled as natural numbers. -/
inductive Message where
  | SetNickname (from_chain_id : Nat) (params : SetNicknameParams)
  | CreateQuiz (from_chain_id : Nat) (params : CreateQuizParams)
  | SubmitAnswers (from_chain_id : Nat) (params : SubmitAnswersParams)
  | StartQuiz (from_chain_id : Nat) (quiz_id : Nat)
  | RegisterForQuiz (from_chain_id : Nat) (quiz_id : Nat)
deriving DecidableEq, Repr

/-- The root view of the quiz application, from state.rs.  MapView
becomes a total function into Option (or into a list, with the empty
list as the unwrap_or_default value used at every read), LogView becomes
a list, RegisterView a plain field. -/
structure QuizState where
  quiz_sets : Nat → Option QuizSet
  user_attempts : Nat → String → Option UserAttempt
  quiz_events : List UserAttempt
  next_quiz_id : Nat
  user_participations : String → List Nat
  leaderboard : Nat → List LeaderboardEntry
  users : String → Option User
  nickname_to_wallet : String → Option String
  user_created_quizzes : String → List Nat
  quiz_participants : Nat → List String

/-- Result of one contract call: the state it leaves behind and the
response error, if any. -/
abbrev OpResult := QuizState × Option QuizError

/-- Point update of a map keyed by quiz id. -/
def updNat {β : Type} (m : Nat → β) (k : Nat) (v : β) : Nat → β :=
  fun k2 => if k2 = k then v else m k2

/-- Point update of a map keyed by a string (wallet address or nickname). -/
def updStr {β : Type} (m : String → β) (k : String) (v : β) : String → β :=
  fun k2 => if k2 = k then v else m k2

/-- Point update of the attempts map keyed by quiz id and wallet address. -/
def updAttempts (m : Nat → String → Option UserAttempt) (q : Nat) (w : String)
    (v : UserAttempt) : Nat → String → Option UserAttempt :=
  fun q2 w2 => if q2 = q ∧ w2 = w then some v else m q2 w2

/-- The empty state every view starts from. -/
def initialState : QuizState :=
  { quiz_sets := fun _ => none
    user_attempts := fun _ _ => none
    quiz_events := []
    next_quiz_id := 0
    user_participations := fun _ => []
    leaderboard := fun _ => []
    users := fun _ => none
    nickname_to_wallet := fun _ => none
    user_created_quizzes := fun _ => []
    quiz_participants := fun _ => [] }

/-- The instantiate hook of contract.rs: set the next quiz id to 1 if it
is still 0. -/
def instantiate (s : QuizState) : QuizState :=
  if s.next_quiz_id = 0 then { s with next_quiz_id := 1 } else s

/-- The set_nickname operation of contract.rs. -/
def set_nickname (now : Nat) (signer : Option String) (params : SetNicknameParams)
    (s : QuizState) : OpResult :=
  match signer with
  | none => (s, some QuizError.InsufficientPermissions)
  | some wallet_address =>
    match s.nickname_to_wallet params.nickname with
    | some _ => (s, some QuizError.NicknameAlreadyTaken)
    | none =>
      let s1 :=
        match s.users wallet_address with
        | some existing_user =>
          { s with nickname_to_wallet := updStr s.nickname_to_wallet existing_user.nickname none }
        | none => s
      let user : User :=
        { wallet_address := wallet_address, nickname := params.nickname, created_at := now }
      let s2 := { s1 with users := updStr s1.users wallet_address (some user) }
      let s3 :=
        { s2 with nickname_to_wallet := updStr s2.nickname_to_wallet params.nickname (some wallet_address) }
      (s3, none)

/-- Largest u64 value; the checked arithmetic of create_quiz tests
against it. -/
def U64MAX : Nat := 18446744073709551615

/-- Model of u64 string parsing as used for the timestamp parameters: an
optional leading plus sign, then at least one decimal digit and nothing
else, with the value bounded by the u64 range. -/
def parseU64 (str : String) : Option Nat :=
  let ds :=
    match str.data with
    | '+' :: rest => rest
    | l => l
  if ds ≠ [] ∧ ds.all (fun c => c.isDigit) then
    let n := ds.foldl (fun n c => n * 10 + (c.toNat - 48)) 0
    if n ≤ U64MAX then some n else none
  else none

/-- One hundred years in microseconds: TimeDelta.from_secs of
3600 * 24 * 365 * 100, converted to the microsecond scale of Timestamp. -/
def HUNDRED_YEARS_MICROS : Nat := 3153600000000000

/-- Parsing of the quiz mode string in create_quiz. -/
def parseQuizMode (str : String) : Option QuizMode :=
  if str = "public" then some QuizMode.Public
  else if str = "registration" then some QuizMode.Registration
  else none

/-- Parsing of the start mode string in create_quiz. -/
def parseStartMode (str : String) : Option QuizStartMode :=
  if str = "auto" then some QuizStartMode.Auto
  else if str = "manual" then some QuizStartMode.Manual
  else none

/-- Question construction in create_quiz: the id is generated from the
quiz id and the question index, and the type is checkbox when more than
one option is correct, radio otherwise. -/
def mkQuestion (quiz_id : Nat) (index : Nat) (q : QuestionParams) : Question :=
  { id := "q" ++ Nat.repr quiz_id ++ "-" ++ Nat.repr index
    text := q.text
    options := q.options
    correct_options := q.correct_options
    points := q.points
    question_type := if q.correct_options.length > 1 then "checkbox" else "radio" }

/-- The pure parameter validation of create_quiz: parse the millisecond
timestamp strings (checked against the u64 range like the Rust parse),
reject implausible magnitudes outside 10 to 14 decimal digits, convert
to microseconds with checked multiplication, enforce the time window
(start after now, end after start, span at most 100 years), and parse
the mode strings.  On success it returns the microsecond window and the
parsed modes. -/
def createValidate (now : Nat) (params : CreateQuizParams) :
    Except QuizError (Nat × Nat × QuizMode × QuizStartMode) :=
  match parseU64 params.start_time with
  | none => Except.error QuizError.InvalidParameters
  | some start_time_millis =>
    if ¬ ((Nat.repr start_time_millis).length ≥ 10 ∧
          (Nat.repr start_time_millis).length ≤ 14) then
      Except.error QuizError.InvalidParameters
    else if start_time_millis * 1000 > U64MAX then
      Except.error QuizError.InvalidParameters
    else
      let start_time := start_time_millis * 1000
      match parseU64 params.end_time with
      | none => Except.error QuizError.InvalidParameters
      | some end_time_millis =>
        if ¬ ((Nat.repr end_time_millis).length ≥ 10 ∧
              (Nat.repr end_time_millis).length ≤ 14) then
          Except.error QuizError.InvalidParameters
        else if end_time_millis * 1000 > U64MAX then
          Except.error QuizError.InvalidParameters
        else
          let end_time := end_time_millis * 1000
          if ¬ (start_time > now) then Except.error QuizError.InvalidParameters
          else if ¬ (end_time > start_time) then Except.error QuizError.InvalidParameters
          else if ¬ (end_time - start_time ≤ HUNDRED_YEARS_MICROS) then
            Except.error QuizError.InvalidParameters
          else
            match parseQuizMode params.mode with
            | none => Except.error QuizError.InvalidQuizMode
            | some mode =>
              match parseStartMode params.start_mode with
              | none => Except.error QuizError.InvalidStartMode
              | some start_mode => Except.ok (start_time, end_time, mode, start_mode)

/-- The quiz record built by create_quiz: fresh question records with
generated ids, the validated window, no registrations and participant
counter zero. -/
def createdQuizSet (now : Nat) (wallet_address : String) (user : User)
    (params : CreateQuizParams) (start_time end_time : Nat) (mode : QuizMode)
    (start_mode : QuizStartMode) (quiz_id : Nat) : QuizSet :=
  { id := quiz_id
    title := params.title
    description := params.description
    creator := wallet_address
    creator_nickname := user.nickname
    questions := params.questions.enum.map (fun p => mkQuestion quiz_id p.1 p.2)
    time_limit := params.time_limit
    start_time := start_time
    end_time := end_time
    created_at := now
    mode := mode
    start_mode := start_mode
    is_started := false
    registered_users := []
    participant_count := 0 }

/-- The write phase of create_quiz once validation has passed: store
the new quiz under the current id counter, append the id to the created
index of the creator, and bump the counter with checked addition. -/
def createApply (now : Nat) (wallet_address : String) (user : User)
    (params : CreateQuizParams) (start_time end_time : Nat) (mode : QuizMode)
    (start_mode : QuizStartMode) (s : QuizState) : OpResult :=
  let quiz_id := s.next_quiz_id
  let quiz_set : QuizSet :=
    createdQuizSet now wallet_address user params start_time end_time mode start_mode quiz_id
  let s1 := { s with quiz_sets := updNat s.quiz_sets quiz_id (some quiz_set) }
  let created := s1.user_created_quizzes wallet_address ++ [quiz_id]
  let s2 :=
    { s1 with user_created_quizzes := updStr s1.user_created_quizzes wallet_address created }
  if quiz_id + 1 > U64MAX then (s2, some QuizError.InternalError)
  else ({ s2 with next_quiz_id := quiz_id + 1 }, none)

/-- The create_quiz operation of contract.rs: authentication, user
lookup, parameter validation, then the write phase. -/
def create_quiz (now : Nat) (signer : Option String) (params : CreateQuizParams)
    (s : QuizState) : OpResult :=
  match signer with
  | none => (s, some QuizError.InsufficientPermissions)
  | some wallet_address =>
    match s.users wallet_address with
    | none => (s, some QuizError.UserNotFound)
    | some user =>
      match createValidate now params with
      | Except.error e => (s, some e)
      | Except.ok (start_time, end_time, mode, start_mode) =>
        createApply now wallet_address user params start_time end_time mode start_mode s

/-- Ascending sort of option index lists, modelling the Vec sort calls
in the scoring loop.  Rust sort is stable; for lists of numbers any
correct sort produces the same output, so a stable insertion sort is an
exact model. -/
def sortedNat (l : List Nat) : List Nat :=
  List.insertionSort (fun a b => a ≤ b) l

/-- Lookup of a question by id, modelling the HashMap built at the top
of the scoring loop: inserting in question order means a later question
with the same id overwrites an earlier one, hence the search of the
reversed list. -/
def findQuestionById (questions : List Question) (qid : String) : Option Question :=
  questions.reverse.find? (fun q => decide (q.id = qid))

/-- Accumulator of the scoring loop of submit_answers: the running score
and the per-question-slot answer table. -/
structure ScoreAcc where
  score : Nat
  answers_by_index : List (List Nat)
deriving DecidableEq, Repr

/-- The scoring loop of submit_answers.  Each submitted answer is looked
up by question id (unknown ids fail with InvalidParameters), stored into
the slot of the first question with that id, and scored by comparing the
sorted selected options with the sorted correct options. -/
def scoreAnswersGo (questions : List Question) :
    List AnswerOption → ScoreAcc → Option ScoreAcc
  | [], acc => some acc
  | a :: rest, acc =>
    match findQuestionById questions a.question_id with
    | none => none
    | some question =>
      match questions.findIdx? (fun q => decide (q.id = a.question_id)) with
      | none => none
      | some question_index =>
        scoreAnswersGo questions rest
          { score := acc.score +
              (if sortedNat a.selected_answers = sortedNat question.correct_options then
                question.points else 0)
            answers_by_index := acc.answers_by_index.set question_index a.selected_answers }

/-- Full scoring pass of submit_answers, starting from score zero and a
table of empty answer slots, one per question. -/
def scoreAnswers (questions : List Question) (answers : List AnswerOption) :
    Option ScoreAcc :=
  scoreAnswersGo questions answers
    { score := 0, answers_by_index := List.replicate questions.length [] }

/-- The state in which the record of one quiz has been overwritten with
its started flag set, as the auto-start step of submit_answers does. -/
def withStarted (s : QuizState) (quiz_id : Nat) (q : QuizSet) : QuizState :=
  { s with quiz_sets := updNat s.quiz_sets quiz_id (some { q with is_started := true }) }

/-- The state in which the record of one quiz has been overwritten with
one wallet appended to its registered list, as a successful
register_for_quiz does. -/
def withRegistered (s : QuizState) (quiz_id : Nat) (q : QuizSet) (w : String) : QuizState :=
  { s with quiz_sets := updNat s.quiz_sets quiz_id (some { q with registered_users := q.registered_users ++ [w] }) }

/-- The auto-start step at the top of submit_answers: an already started
quiz passes through; a not-yet-started Auto quiz whose start time has
been reached is marked started and written back to the quiz map; any
other not-yet-started quiz yields none, mapped to QuizNotStarted by the
caller. -/
def autoStart (now : Nat) (quiz_id : Nat) (q : QuizSet) (s : QuizState) :
    Option (QuizSet × QuizState) :=
  if q.is_started then some (q, s)
  else if q.start_mode = QuizStartMode.Auto ∧ now ≥ q.start_time then
    some ({ q with is_started := true }, withStarted s quiz_id q)
  else none

/-- The participation permission check of submit_answers: in both modes
the caller must have a user record whose nickname matches the submitted
one, and in Registration mode the caller must appear in the registered
list. -/
def checkParticipant (params : SubmitAnswersParams) (wallet_address : String)
    (q : QuizSet) (s : QuizState) : Option QuizError :=
  match q.mode with
  | QuizMode.Public =>
    match s.users wallet_address with
    | none => some QuizError.UserNotFound
    | some user =>
      if user.nickname ≠ params.nickname then some QuizError.InvalidParameters else none
  | QuizMode.Registration =>
    match s.users wallet_address with
    | none => some QuizError.UserNotFound
    | some user =>
      if user.nickname ≠ params.nickname then some QuizError.InvalidParameters
      else if ¬ wallet_address ∈ q.registered_users then some QuizError.UserNotRegistered
      else none

/-- The in-memory entry update of update_leaderboard in contract.rs:
find the entry of the user by linear scan and update its score in
place, or append a new entry with time_taken 0. -/
def updatedEntries (entries : List LeaderboardEntry) (user : String) (score : Nat) :
    List LeaderboardEntry :=
  match entries.findIdx? (fun entry => decide (entry.user = user)) with
  | some index =>
    match entries[index]? with
    | some e => entries.set index { e with score := score }
    | none => entries
  | none => entries ++ [{ user := user, score := score, time_taken := 0 }]

/-- The descending re-sort of update_leaderboard: the Rust sort_by with
comparator cmp of scores reversed is a stable sort by score descending,
modelled by a stable insertion sort under the same total preorder. -/
def sortByScoreDesc (entries : List LeaderboardEntry) : List LeaderboardEntry :=
  List.insertionSort (fun a b => b.score ≤ a.score) entries

/-- The leaderboard maintenance routine update_leaderboard of
contract.rs: update or append the entry of the user, re-sort the whole
list by score descending, and store it. -/
def update_leaderboard (quiz_id : Nat) (user : String) (score : Nat)
    (s : QuizState) : QuizState :=
  let sorted := sortByScoreDesc (updatedEntries (s.leaderboard quiz_id) user score)
  { s with leaderboard := updNat s.leaderboard quiz_id sorted }

/-- The write phase of a successful submit_answers call, applied to the
state reached after the auto-start step: persist the attempt record,
log the event, append the wallet to the participant list when absent,
bump the participant counter of the quiz, record the participation of
the user, and refresh the leaderboard. -/
def submitApply (now : Nat) (wallet_address : String) (params : SubmitAnswersParams)
    (quiz_set : QuizSet) (acc : ScoreAcc) (s1 : QuizState) : QuizState :=
  let attempt : UserAttempt :=
    { quiz_id := params.quiz_id
      user := wallet_address
      nickname := params.nickname
      answers := acc.answers_by_index
      score := acc.score
      time_taken := params.time_taken
      completed_at := now }
  let attempts2 := updAttempts s1.user_attempts params.quiz_id wallet_address attempt
  let events2 := s1.quiz_events ++ [attempt]
  let s2 := { s1 with user_attempts := attempts2, quiz_events := events2 }
  let participants := s2.quiz_participants params.quiz_id
  let participants2 := participants ++ [wallet_address]
  let s3 :=
    if ¬ wallet_address ∈ participants then
      { s2 with quiz_participants := updNat s2.quiz_participants params.quiz_id participants2 }
    else s2
  let counted := { quiz_set with participant_count := quiz_set.participant_count + 1 }
  let s4 := { s3 with quiz_sets := updNat s3.quiz_sets params.quiz_id (some counted) }
  let partic2 := s4.user_participations wallet_address ++ [params.quiz_id]
  let s5 :=
    { s4 with user_participations := updStr s4.user_participations wallet_address partic2 }
  update_leaderboard params.quiz_id wallet_address acc.score s5

/-- The submit_answers operation of contract.rs. -/
def submit_answers (now : Nat) (signer : Option String) (params : SubmitAnswersParams)
    (s : QuizState) : OpResult :=
  match signer with
  | none => (s, some QuizError.InsufficientPermissions)
  | some wallet_address =>
    match s.quiz_sets params.quiz_id with
    | none => (s, some QuizError.QuizNotFound)
    | some quiz_set0 =>
      match autoStart now params.quiz_id quiz_set0 s with
      | none => (s, some QuizError.QuizNotStarted)
      | some (quiz_set, s1) =>
        if ¬ (now ≤ quiz_set.end_time) then (s1, some QuizError.InvalidParameters)
        else if (s1.user_attempts params.quiz_id wallet_address).isSome then
          (s1, some QuizError.UserAlreadyAttempted)
        else
          match checkParticipant params wallet_address quiz_set s1 with
          | some e => (s1, some e)
          | none =>
            if params.answers.length ≠ quiz_set.questions.length then
              (s1, some QuizError.InvalidParameters)
            else
              match scoreAnswers quiz_set.questions params.answers with
              | none => (s1, some QuizError.InvalidParameters)
              | some acc => (submitApply now wallet_address params quiz_set acc s1, none)

/-- The start_quiz operation of contract.rs. -/
def start_quiz (now : Nat) (signer : Option String) (quiz_id : Nat)
    (s : QuizState) : OpResult :=
  match signer with
  | none => (s, some QuizError.InsufficientPermissions)
  | some wallet_address =>
    match s.quiz_sets quiz_id with
    | none => (s, some QuizError.QuizNotFound)
    | some quiz_set =>
      if quiz_set.creator ≠ wallet_address then (s, some QuizError.InsufficientPermissions)
      else if quiz_set.start_mode ≠ QuizStartMode.Manual then
        (s, some QuizError.InvalidParameters)
      else if quiz_set.is_started then (s, some QuizError.InvalidParameters)
      else if ¬ (now ≥ quiz_set.start_time) then (s, some QuizError.InvalidParameters)
      else if ¬ (now ≤ quiz_set.end_time) then (s, some QuizError.InvalidParameters)
      else
        let started := { quiz_set with is_started := true }
        ({ s with quiz_sets := updNat s.quiz_sets quiz_id (some started) }, none)

/-- The register_for_quiz operation of contract.rs. -/
def register_for_quiz (now : Nat) (signer : Option String) (quiz_id : Nat)
    (s : QuizState) : OpResult :=
  match signer with
  | none => (s, some QuizError.InsufficientPermissions)
  | some wallet_address =>
    match s.quiz_sets quiz_id with
    | none => (s, some QuizError.QuizNotFound)
    | some quiz_set =>
      if quiz_set.mode ≠ QuizMode.Registration then (s, some QuizError.InvalidParameters)
      else if quiz_set.is_started then (s, some QuizError.InvalidParameters)
      else if ¬ (now < quiz_set.end_time) then (s, some QuizError.InvalidParameters)
      else
        match s.users wallet_address with
        | none => (s, some QuizError.UserNotFound)
        | some _ =>
          if wallet_address ∈ quiz_set.registered_users then
            (s, some QuizError.UserAlreadyRegistered)
          else
            let registered := { quiz_set with registered_users := quiz_set.registered_users ++ [wallet_address] }
            ({ s with quiz_sets := updNat s.quiz_sets quiz_id (some registered) }, none)

/-- The execute_operation dispatcher of contract.rs on the authority
(main) chain: each operation kind is handled by its mutation function. -/
def execute_operation (now : Nat) (signer : Option String) (op : Operation)
    (s : QuizState) : OpResult :=
  match op with
  | Operation.SetNickname params => set_nickname now signer params s
  | Operation.CreateQuiz params => create_quiz now signer params s
  | Operation.SubmitAnswers params => submit_answers now signer params s
  | Operation.StartQuiz quiz_id => start_quiz now signer quiz_id s
  | Operation.RegisterForQuiz quiz_id => register_for_quiz now signer quiz_id s

/-- The operation replayed by a cross-chain message: each handler of
execute_message in contract.rs calls the corresponding mutation
function on the authority chain. -/
def message_result (now : Nat) (signer : Option String) (msg : Message)
    (s : QuizState) : OpResult :=
  match msg with
  | Message.SetNickname _ params => set_nickname now signer params s
  | Message.CreateQuiz _ params => create_quiz now signer params s
  | Message.SubmitAnswers _ params => submit_answers now signer params s
  | Message.StartQuiz _ quiz_id => start_quiz now signer quiz_id s
  | Message.RegisterForQuiz _ quiz_id => register_for_quiz now signer quiz_id s

/-- The execute_message handler of contract.rs: replay the operation and
discard its result, keeping only the state. -/
def execute_message (now : Nat) (signer : Option String) (msg : Message)
    (s : QuizState) : QuizState :=
  (message_result now signer msg s).1

end Quiz

namespace PixelChain

/-- RGBA color, from lib.rs of pixel-chain. -/
structure PixelColor where
  red : Nat
  green : Nat
  blue : Nat
  alpha : Nat
deriving DecidableEq, Repr

/-- Transparency test of lib.rs: alpha equals 0. -/
def PixelColor.is_transparent (c : PixelColor) : Bool := c.alpha = 0

/-- A pixel on the canvas, from lib.rs.  Chain ids are modelled as
natural numbers. -/
structure Pixel where
  x : Nat
  y : Nat
  color : Option PixelColor
  owner : Option Nat
  timestamp : Nat
deriving DecidableEq, Repr

/-- A single entry of a batch update, from lib.rs. -/
structure PixelUpdate where
  x : Nat
  y : Nat
  color : PixelColor
deriving DecidableEq, Repr

/-- Canvas statistics, from lib.rs. -/
structure CanvasStats where
  total_pixels : Nat
  colored_pixels : Nat
  transparent_pixels : Nat
  unique_colors : Nat
  last_update : Option Nat
deriving DecidableEq, Repr

/-- Cross-chain notification record, from lib.rs. -/
structure Notification where
  notification_type : String
  x : Nat
  y : Nat
  new_color : Option PixelColor
  modified_by : Nat
  timestamp : Nat
  processed : Bool
deriving DecidableEq, Repr

/-- Entry of a batch modification message, from lib.rs. -/
structure PixelModification where
  x : Nat
  y : Nat
  new_color : Option PixelColor
  previous_color : Option PixelColor
deriving DecidableEq, Repr

/-- Cross-chain message surface of the pixel contract, from lib.rs. -/
inductive PixelMessage where
  | PixelModified (x y : Nat) (new_color : Option PixelColor) (modified_by : Nat) (timestamp : Nat)
  | BatchPixelModified (pixels : List PixelModification) (modified_by : Nat) (timestamp : Nat)
  | OwnershipClaim (x y : Nat) (requested_by : Nat) (timestamp : Nat)
deriving DecidableEq, Repr

/-- Events emitted on the pixel_changes stream, from contract.rs. -/
inductive PixelEvent where
  | PixelChanged (x y : Nat) (color : PixelColor)
  | PixelCleared (x y : Nat)
  | BatchUpdate (count : Nat)
  | CrossChainPixelModified (x y : Nat) (color : PixelColor) (modified_by : Nat)
  | CrossChainPixelCleared (x y : Nat) (modified_by : Nat)
  | CrossChainBatchModified (count : Nat) (modified_by : Nat)
  | OwnershipChanged (x y : Nat) (new_owner old_owner : Option Nat)
deriving DecidableEq, Repr

/-- The root view of the pixel application, from state.rs of
pixel-chain. -/
structure PixelState where
  canvas_width : Nat
  canvas_height : Nat
  pixels : Nat × Nat → Option Pixel
  pixel_updates : List PixelUpdate
  colored_pixel_count : Nat
  canvas_stats : CanvasStats
  default_color : PixelColor
  cross_chain_notifications : List Notification

/-- Point update of the pixel map keyed by position. -/
def updPos (m : Nat × Nat → Option Pixel) (k : Nat × Nat) (v : Option Pixel) :
    Nat × Nat → Option Pixel :=
  fun k2 => if k2 = k then v else m k2

/-- The bounds check of state.rs: both coordinates strictly below the
canvas dimensions. -/
def is_valid_position (s : PixelState) (x y : Nat) : Bool :=
  decide (x < s.canvas_width) && decide (y < s.canvas_height)

/-- The canvas initialization routine of state.rs, run at instantiation
with the canvas dimensions. -/
def initCanvas (width height : Nat) (s : PixelState) : PixelState :=
  { s with
      canvas_width := width
      canvas_height := height
      default_color := { red := 0, green := 0, blue := 0, alpha := 0 }
      canvas_stats :=
        { total_pixels := width * height
          colored_pixels := 0
          transparent_pixels := width * height
          unique_colors := 0
          last_update := none }
      colored_pixel_count := 0 }

/-- The update_stats routine of state.rs.  The u32 counter moves are
modelled on Nat; the decrement uses truncated subtraction. -/
def update_stats (now : Nat) (old_color new_color : Option PixelColor)
    (s : PixelState) : PixelState :=
  let was_colored := (old_color.map (fun c => !c.is_transparent)).getD false
  let is_colored := (new_color.map (fun c => !c.is_transparent)).getD false
  let count :=
    if was_colored && !is_colored then s.colored_pixel_count - 1
    else if !was_colored && is_colored then s.colored_pixel_count + 1
    else s.colored_pixel_count
  let stats :=
    { s.canvas_stats with
        colored_pixels := count
        transparent_pixels := s.canvas_stats.total_pixels - count
        last_update := some now }
  { s with colored_pixel_count := count, canvas_stats := stats }

/-- Result of executing a pixel operation or message: the post state,
the cross-chain messages sent (destination chain paired with the
message) and the events emitted, in order. -/
structure PixelOutcome where
  state : PixelState
  messages : List (Nat × PixelMessage)
  events : List PixelEvent

/-- The execute_set_pixel operation of contract.rs.  An out-of-bounds
coordinate panics, which aborts the whole execution; the abort is
modelled by the none result. -/
def execute_set_pixel (chain_id now : Nat) (x y : Nat) (color : PixelColor)
    (s : PixelState) : Option PixelOutcome :=
  if ¬ is_valid_position s x y then none
  else
    let position := (x, y)
    let old_pixel := s.pixels position
    let notification_required :=
      match old_pixel with
      | some pixel => decide (pixel.owner ≠ some chain_id)
      | none => false
    let pixel : Pixel :=
      { x := x, y := y, color := some color, owner := some chain_id, timestamp := now }
    let s1 := { s with pixels := updPos s.pixels position (some pixel) }
    let s2 := { s1 with pixel_updates := s1.pixel_updates ++ [{ x := x, y := y, color := color }] }
    let s3 := update_stats now (old_pixel.bind (fun p => p.color)) (some color) s2
    let messages :=
      if notification_required then
        match old_pixel.bind (fun p => p.owner) with
        | some old_owner => [(old_owner, PixelMessage.PixelModified x y (some color) chain_id now)]
        | none => []
      else []
    some { state := s3, messages := messages, events := [PixelEvent.PixelChanged x y color] }

/-- The execute_clear_pixel operation of contract.rs: the pixel keeps a
record with no color, owned by the clearing chain; the update log gets
an entry with the default color; no cross-chain message is sent. -/
def execute_clear_pixel (chain_id now : Nat) (x y : Nat)
    (s : PixelState) : Option PixelOutcome :=
  if ¬ is_valid_position s x y then none
  else
    let position := (x, y)
    let old_pixel := s.pixels position
    let cleared_color := s.default_color
    let pixel : Pixel :=
      { x := x, y := y, color := none, owner := some chain_id, timestamp := now }
    let s1 := { s with pixels := updPos s.pixels position (some pixel) }
    let s2 :=
      { s1 with pixel_updates := s1.pixel_updates ++ [{ x := x, y := y, color := cleared_color }] }
    let s3 := update_stats now (old_pixel.bind (fun p => p.color)) none s2
    some { state := s3, messages := [], events := [PixelEvent.PixelCleared x y] }

/-- The loop body of execute_set_pixels: invalid positions are skipped
with continue, valid ones are written like a single set with no
cross-chain message. -/
def setPixelsGo (chain_id now : Nat) : List PixelUpdate → PixelState → PixelState
  | [], s => s
  | pu :: rest, s =>
    if ¬ is_valid_position s pu.x pu.y then setPixelsGo chain_id now rest s
    else
      let position := (pu.x, pu.y)
      let old_pixel := s.pixels position
      let pixel : Pixel :=
        { x := pu.x, y := pu.y, color := some pu.color, owner := some chain_id, timestamp := now }
      let s1 := { s with pixels := updPos s.pixels position (some pixel) }
      let s2 :=
        { s1 with pixel_updates := s1.pixel_updates ++ [{ x := pu.x, y := pu.y, color := pu.color }] }
      let s3 := update_stats now (old_pixel.bind (fun p => p.color)) (some pu.color) s2
      setPixelsGo chain_id now rest s3

/-- The execute_set_pixels operation of contract.rs: process every entry
with the skip-on-invalid loop, then emit one BatchUpdate event counting
the full input list.  No panic can occur, so the outcome is always
some. -/
def execute_set_pixels (chain_id now : Nat) (pixels : List PixelUpdate)
    (s : PixelState) : Option PixelOutcome :=
  some { state := setPixelsGo chain_id now pixels s
         messages := []
         events := [PixelEvent.BatchUpdate pixels.length] }

/-- The handle_ownership_claim message handler of contract.rs.  The
claim is logged first with processed false; then, inside the bounds, an
unclaimed cell is granted to the requester with a confirmation message
and an ownership event, a cell already owned by the requester produces
only an OwnershipClaim echo message, and a cell owned by another chain
produces an informational PixelModified message. -/
def handle_ownership_claim (now : Nat) (x y : Nat) (requested_by : Nat)
    (timestamp : Nat) (s : PixelState) : PixelOutcome :=
  let note : Notification :=
    { notification_type := "ownership_claim"
      x := x
      y := y
      new_color := none
      modified_by := requested_by
      timestamp := timestamp
      processed := false }
  let s0 := { s with cross_chain_notifications := s.cross_chain_notifications ++ [note] }
  if ¬ is_valid_position s0 x y then { state := s0, messages := [], events := [] }
  else
    let position := (x, y)
    match s0.pixels position with
    | some pixel =>
      let response :=
        if pixel.owner = some requested_by then
          PixelMessage.OwnershipClaim x y requested_by now
        else
          PixelMessage.PixelModified x y pixel.color (pixel.owner.getD requested_by) pixel.timestamp
      { state := s0, messages := [(requested_by, response)], events := [] }
    | none =>
      let pixel : Pixel :=
        { x := x, y := y, color := none, owner := some requested_by, timestamp := timestamp }
      let s1 := { s0 with pixels := updPos s0.pixels position (some pixel) }
      { state := s1
        messages := [(requested_by, PixelMessage.OwnershipClaim x y requested_by now)]
        events := [PixelEvent.OwnershipChanged x y (some requested_by) none] }

end PixelChain

namespace Quiz

/-- Sum, over the submitted answer entries, of the points of the
question each entry names, counted when the sorted selected options
equal the sorted correct options of that question.  This is the score
the scoring loop of submit_answers accumulates. -/
def entryScore (questions : List Question) (answers : List AnswerOption) : Nat :=
  (answers.map (fun a =>
    match findQuestionById questions a.question_id with
    | some q => if sortedNat a.selected_answers = sortedNat q.correct_options then q.points else 0
    | none => 0)).sum

/-- Per-question reading of the scoring specification: walking the
questions in order next to a table of submitted option lists, award the
points of a question exactly when its submitted list equals its correct
list after sorting both. -/
def claimScore (questions : List Question) (submitted : List (List Nat)) : Nat :=
  ((questions.zip submitted).map (fun p =>
    if sortedNat p.2 = sortedNat p.1.correct_options then p.1.points else 0)).sum

/-- At most one leaderboard entry per identity. -/
def OnePerUser (l : List LeaderboardEntry) : Prop :=
  List.Pairwise (fun a b => a.user ≠ b.user) l

/-- Sorted by score in descending order. -/
def ScoreSorted (l : List LeaderboardEntry) : Prop :=
  List.Pairwise (fun a b => b.score ≤ a.score) l

instance scoreDescTotal : IsTotal LeaderboardEntry (fun a b => b.score ≤ a.score) :=
  ⟨fun a b => Nat.le_total b.score a.score⟩

instance scoreDescTrans : IsTrans LeaderboardEntry (fun a b => b.score ≤ a.score) :=
  ⟨fun _ _ _ h1 h2 => Nat.le_trans h2 h1⟩

/-- Every stored leaderboard list has at most one entry per identity and
is sorted by score descending. -/
def LeaderboardInv (s : QuizState) : Prop :=
  ∀ qid, OnePerUser (s.leaderboard qid) ∧ ScoreSorted (s.leaderboard qid)

/-- The participant counter stored in each quiz record equals the
length of the participant list of that quiz. -/
def CountMatches (s : QuizState) : Prop :=
  ∀ qid q, s.quiz_sets qid = some q →
    q.participant_count = (s.quiz_participants qid).length

/-- No participant list contains a duplicate identity. -/
def NodupParticipants (s : QuizState) : Prop :=
  ∀ qid, (s.quiz_participants qid).Nodup

/-- Every listed participant has a stored attempt for that quiz: the
uniqueness of attempt records is what rules out double counting. -/
def AttemptBacked (s : QuizState) : Prop :=
  ∀ qid w, w ∈ s.quiz_participants qid → (s.user_attempts qid w).isSome = true

/-- Participant lists exist only below the id counter. -/
def ParticipantsBelowNext (s : QuizState) : Prop :=
  ∀ qid, s.next_quiz_id ≤ qid → s.quiz_participants qid = []

/-- Quiz records exist only below the id counter. -/
def QuizzesBelowNext (s : QuizState) : Prop :=
  ∀ qid, s.next_quiz_id ≤ qid → s.quiz_sets qid = none

/-- The participant-count bookkeeping invariant together with the
auxiliary facts needed to push it through every operation. -/
def ParticipantInv (s : QuizState) : Prop :=
  CountMatches s ∧ NodupParticipants s ∧ AttemptBacked s ∧
    ParticipantsBelowNext s ∧ QuizzesBelowNext s

/-- One authority-chain contract call: a system time, an authenticated
signer and an operation. -/
structure OpCall where
  now : Nat
  signer : Option String
  op : Operation

/-- The quiz id assigned by a call: a successful CreateQuiz takes the
current id counter, every other call assigns nothing. -/
def assignedIds (c : OpCall) (s : QuizState) : List Nat :=
  match c.op, (execute_operation c.now c.signer c.op s).2 with
  | Operation.CreateQuiz _, none => [s.next_quiz_id]
  | _, _ => []

/-- Run a sequence of authority-chain calls, collecting the quiz ids
assigned by the successful creations in order. -/
def runOps : List OpCall → QuizState → QuizState × List Nat
  | [], s => (s, [])
  | c :: rest, s =>
    let r := execute_operation c.now c.signer c.op s
    let rr := runOps rest r.1
    (rr.1, assignedIds c s ++ rr.2)

end Quiz

open Quiz PixelChain

/-- A first question fixture with seven points and one correct option. -/
def qz0 : Question :=
  { id := "q1-0", text := "t0", options := ["a", "b"], correct_options := [0]
    points := 7, question_type := "radio" }

/-- A second question fixture with five points and one correct option. -/
def qz1 : Question :=
  { id := "q1-1", text := "t1", options := ["a", "b"], correct_options := [1]
    points := 5, question_type := "radio" }

/-- A public Auto-mode quiz fixture with two questions, window 100 to
200 microseconds, not yet started. -/
def quizA : QuizSet :=
  { id := 1, title := "T", description := "D", creator := "w", creator_nickname := "n"
    questions := [qz0, qz1], time_limit := 60, start_time := 100, end_time := 200
    created_at := 0, mode := QuizMode.Public, start_mode := QuizStartMode.Auto
    is_started := false, registered_users := [], participant_count := 0 }

/-- A user fixture with wallet w and nickname n. -/
def userW : User := { wallet_address := "w", nickname := "n", created_at := 0 }

/-- An authority state fixture holding quizA under id 1 and the user
fixture, with the id counter at 2. -/
def stateA : QuizState :=
  { initialState with
      next_quiz_id := 2
      quiz_sets := updNat initialState.quiz_sets 1 (some quizA)
      users := updStr initialState.users "w" (some userW)
      nickname_to_wallet := updStr initialState.nickname_to_wallet "n" (some "w") }

/-- A submission fixture answering question q1-0 twice, each time with
its correct option. -/
def paramsDup : SubmitAnswersParams :=
  { quiz_id := 1, answers := [⟨"q1-0", [0]⟩, ⟨"q1-0", [0]⟩], time_taken := 9, nickname := "n" }

/-- A well-formed submission fixture answering both questions of quizA
correctly, given out of question order. -/
def paramsOk : SubmitAnswersParams :=
  { quiz_id := 1, answers := [⟨"q1-1", [1]⟩, ⟨"q1-0", [0]⟩], time_taken := 9, nickname := "n" }

/-- Quiz creation parameters fixture with 13-digit millisecond
timestamps. -/
def createParams : CreateQuizParams :=
  { title := "T", description := "D"
    questions := [⟨"t", ["a", "b"], [0], 7, "radio", "x"⟩]
    time_limit := 60, start_time := "1800000000000", end_time := "1800000000001"
    nickname := "n", mode := "public", start_mode := "auto" }

/-- Quiz creation parameters fixture whose millisecond timestamps have
15 decimal digits. -/
def createParamsBig : CreateQuizParams :=
  { createParams with start_time := "100000000000000", end_time := "100000000000001" }

/-- The state reached from stateA by the successful duplicate-id
submission at time 150: used to replay submissions against an existing
attempt. -/
def stateB : QuizState := (submit_answers 150 (some "w") paramsOk stateA).1

/-- A quiz fixture sitting at the saturated id counter: participant
counter 1 matching its one recorded participant. -/
def quizMax : QuizSet :=
  { quizA with id := U64MAX, is_started := true, participant_count := 1 }

/-- The attempt record backing the participant of quizMax. -/
def attemptMax : UserAttempt :=
  { quiz_id := U64MAX, user := "w", nickname := "n", answers := [[0], [1]]
    score := 12, time_taken := 9, completed_at := 150 }

/-- An authority state whose id counter has saturated at the largest
u64 value, holding quizMax at that id with one attempt-backed
participant. -/
def stateMax : QuizState :=
  { initialState with
      next_quiz_id := U64MAX
      quiz_sets := updNat initialState.quiz_sets U64MAX (some quizMax)
      quiz_participants := updNat initialState.quiz_participants U64MAX ["w"]
      user_attempts := updAttempts initialState.user_attempts U64MAX "w" attemptMax
      users := updStr initialState.users "w" (some userW)
      nickname_to_wallet := updStr initialState.nickname_to_wallet "n" (some "w") }

/-- The quizA fixture with its started flag set. -/
def quizAStarted : QuizSet := { quizA with is_started := true }

/-- The stateA fixture with quizA already started. -/
def stateAS : QuizState :=
  { stateA with quiz_sets := updNat stateA.quiz_sets 1 (some quizAStarted) }

/-- A submission fixture carrying one answer for the two-question
quizA. -/
def paramsShort : SubmitAnswersParams :=
  { quiz_id := 1, answers := [⟨"q1-0", [0]⟩], time_taken := 9, nickname := "n" }

/-- The attempt record stored by the successful paramsOk submission at
time 150. -/
def attemptOk : UserAttempt :=
  { quiz_id := 1, user := "w", nickname := "n", answers := [[0], [1]]
    score := 12, time_taken := 9, completed_at := 150 }

/-- The quizA record as stored after the successful paramsOk
submission: started, with one counted participant. -/
def quizADone : QuizSet := { quizA with is_started := true, participant_count := 1 }

/-- An opaque red color fixture. -/
def pxRed : PixelColor := { red := 255, green := 0, blue := 0, alpha := 255 }

/-- A one-by-one canvas with no pixel records. -/
def pxBase : PixelState :=
  { canvas_width := 1, canvas_height := 1, pixels := fun _ => none, pixel_updates := []
    colored_pixel_count := 0
    canvas_stats :=
      { total_pixels := 1, colored_pixels := 0, transparent_pixels := 1
        unique_colors := 0, last_update := none }
    default_color := { red := 0, green := 0, blue := 0, alpha := 0 }
    cross_chain_notifications := [] }

/-- The one-by-one canvas with its single cell colored red and owned by
chain 2. -/
def pxOwned2 : PixelState :=
  { pxBase with
      pixels := updPos pxBase.pixels (0, 0)
        (some { x := 0, y := 0, color := some pxRed, owner := some 2, timestamp := 3 }) }

/-- The notification record handle_ownership_claim appends for a claim
of cell x y by the given chain at the given message timestamp. -/
def claimNote (x y requested_by t : Nat) : Notification :=
  { notification_type := "ownership_claim", x := x, y := y, new_color := none
    modified_by := requested_by, timestamp := t, processed := false }

/-- C4 counterexample: clearing a cell owned by a different chain sends
no message at all, although the claim requires a modification
notification to the prior owning context; the prior owner of the cell
is chain 2 while the executing chain is 1. -/
theorem pixel_c4_counterexample :
    (execute_clear_pixel 1 5 0 0 pxOwned2).map PixelOutcome.messages = some [] ∧
    (pxOwned2.pixels (0, 0)).map Pixel.owner = some (some 2) ∧ (2 : Nat) ≠ 1 := by
  decide

/-- C4 amended: only the set-pixel operation notifies a prior owning
context that differs from the executing chain; clear pixel and batch
set send no cross-chain message at all. -/
theorem pixel_c4_amended :
    (∀ chain_id now x y color s p o, is_valid_position s x y = true →
        s.pixels (x, y) = some p → p.owner = some o → o ≠ chain_id →
        ∃ out, execute_set_pixel chain_id now x y color s = some out ∧
          out.messages = [(o, PixelMessage.PixelModified x y (some color) chain_id now)]) ∧
    (∀ chain_id now x y s, is_valid_position s x y = true →
        ∃ out, execute_clear_pixel chain_id now x y s = some out ∧ out.messages = []) ∧
    (∀ chain_id now pixels s,
        ∃ out, execute_set_pixels chain_id now pixels s = some out ∧ out.messages = []) := by
  refine ⟨?_, ?_, ?_⟩
  · intro chain_id now x y color s p o hval hpix howner hne
    simp only [execute_set_pixel, hval, not_true_eq_false, if_false, ite_false,
      Bool.false_eq_true, reduceIte]
    refine ⟨_, rfl, ?_⟩
    simp [hpix, howner, hne]
  · intro chain_id now x y s hval
    simp only [execute_clear_pixel, hval, not_true_eq_false, if_false, ite_false,
      Bool.false_eq_true, reduceIte]
    exact ⟨_, rfl, rfl⟩
  · intro chain_id now pixels s
    exact ⟨_, rfl, rfl⟩

/-- C4 amended witness at the concrete one-cell canvas owned by chain
2, executed by chain 1. -/
theorem pixel_c4_amended_witness :
    (∃ out, execute_set_pixel 1 5 0 0 pxRed pxOwned2 = some out ∧
      out.messages = [(2, PixelMessage.PixelModified 0 0 (some pxRed) 1 5)]) ∧
    (∃ out, execute_clear_pixel 1 5 0 0 pxOwned2 = some out ∧ out.messages = []) ∧
    (∃ out, execute_set_pixels 1 5 [] pxOwned2 = some out ∧ out.messages = []) :=
  ⟨pixel_c4_amended.1 1 5 0 0 pxRed pxOwned2
      { x := 0, y := 0, color := some pxRed, owner := some 2, timestamp := 3 } 2
      (by decide) (by decide) (by decide) (by decide),
    pixel_c4_amended.2.1 1 5 0 0 pxOwned2 (by decide),
    pixel_c4_amended.2.2 1 5 [] pxOwned2⟩

/-- C5 counterexample: a batch set containing the out-of-bounds target
x 5 on a one-by-one canvas does not abort with a fault; it terminates
normally, skipping the invalid entry, so nothing is stored at that
position. -/
theorem pixel_c5_counterexample :
    is_valid_position pxBase 5 0 = false ∧
    (execute_set_pixels 1 7 [{ x := 5, y := 0, color := pxRed }] pxBase).isSome = true ∧
    (execute_set_pixels 1 7 [{ x := 5, y := 0, color := pxRed }] pxBase).map
      (fun o => o.state.pixels (5, 0)) = some none := by
  decide

/-- C5 amended: set pixel and clear pixel abort with a fatal fault and
no effect on out-of-bounds coordinates, while batch set never faults on
bounds: out-of-bounds entries are skipped and the remaining entries
applied. -/
theorem pixel_c5_amended :
    (∀ chain_id now x y color s, is_valid_position s x y = false →
        execute_set_pixel chain_id now x y color s = none) ∧
    (∀ chain_id now x y s, is_valid_position s x y = false →
        execute_clear_pixel chain_id now x y s = none) ∧
    (∀ chain_id now pixels s, (execute_set_pixels chain_id now pixels s).isSome = true) := by
  refine ⟨?_, ?_, ?_⟩
  · intro chain_id now x y color s hval
    simp [execute_set_pixel, hval]
  · intro chain_id now x y s hval
    simp [execute_clear_pixel, hval]
  · intro chain_id now pixels s
    rfl

/-- C5 amended witness at concrete out-of-bounds coordinates on the
one-by-one canvas. -/
theorem pixel_c5_amended_witness :
    execute_set_pixel 1 7 5 0 pxRed pxBase = none ∧
    execute_clear_pixel 1 7 5 0 pxBase = none ∧
    (execute_set_pixels 1 7 [{ x := 5, y := 0, color := pxRed }] pxBase).isSome = true :=
  ⟨pixel_c5_amended.1 1 7 5 0 pxRed pxBase (by decide),
    pixel_c5_amended.2.1 1 7 5 0 pxBase (by decide),
    pixel_c5_amended.2.2 1 7 [{ x := 5, y := 0, color := pxRed }] pxBase⟩

/-- C9 confirmed: a first ownership claim on an in-bounds unclaimed
cell grants ownership to the requester; an immediate second claim by
the same requester leaves the whole pixel map unchanged, receives an
OwnershipClaim confirmation echo, and both claims are individually
appended to the notification log with processed false. -/
theorem pixel_c9 :
    ∀ now1 now2 t1 t2 x y rq s, is_valid_position s x y = true → s.pixels (x, y) = none →
      (handle_ownership_claim now1 x y rq t1 s).state.pixels (x, y) =
        some { x := x, y := y, color := none, owner := some rq, timestamp := t1 } ∧
      (handle_ownership_claim now2 x y rq t2
          (handle_ownership_claim now1 x y rq t1 s).state).state.pixels =
        (handle_ownership_claim now1 x y rq t1 s).state.pixels ∧
      (handle_ownership_claim now2 x y rq t2
          (handle_ownership_claim now1 x y rq t1 s).state).messages =
        [(rq, PixelMessage.OwnershipClaim x y rq now2)] ∧
      (handle_ownership_claim now1 x y rq t1 s).messages =
        [(rq, PixelMessage.OwnershipClaim x y rq now1)] ∧
      (handle_ownership_claim now1 x y rq t1 s).state.cross_chain_notifications =
        s.cross_chain_notifications ++ [claimNote x y rq t1] ∧
      (handle_ownership_claim now2 x y rq t2
          (handle_ownership_claim now1 x y rq t1 s).state).state.cross_chain_notifications =
        s.cross_chain_notifications ++ [claimNote x y rq t1, claimNote x y rq t2] := by
  intro now1 now2 t1 t2 x y rq s hval hnone
  have hval2 : ∀ px pu cc cs dc l,
      is_valid_position
        { canvas_width := s.canvas_width, canvas_height := s.canvas_height, pixels := px
          pixel_updates := pu, colored_pixel_count := cc, canvas_stats := cs
          default_color := dc, cross_chain_notifications := l } x y = true :=
    fun _ _ _ _ _ _ => hval
  simp [handle_ownership_claim, hval2, hnone, claimNote, updPos]

/-- C9 witness: the double claim on the empty one-by-one canvas. -/
theorem pixel_c9_witness :
    (handle_ownership_claim 10 0 0 4 100 pxBase).state.pixels (0, 0) =
      some { x := 0, y := 0, color := none, owner := some 4, timestamp := 100 } ∧
    (handle_ownership_claim 11 0 0 4 101
        (handle_ownership_claim 10 0 0 4 100 pxBase).state).state.pixels =
      (handle_ownership_claim 10 0 0 4 100 pxBase).state.pixels ∧
    (handle_ownership_claim 11 0 0 4 101
        (handle_ownership_claim 10 0 0 4 100 pxBase).state).messages =
      [(4, PixelMessage.OwnershipClaim 0 0 4 11)] ∧
    (handle_ownership_claim 10 0 0 4 100 pxBase).messages =
      [(4, PixelMessage.OwnershipClaim 0 0 4 10)] ∧
    (handle_ownership_claim 10 0 0 4 100 pxBase).state.cross_chain_notifications =
      pxBase.cross_chain_notifications ++ [claimNote 0 0 4 100] ∧
    (handle_ownership_claim 11 0 0 4 101
        (handle_ownership_claim 10 0 0 4 100 pxBase).state).state.cross_chain_notifications =
      pxBase.cross_chain_notifications ++ [claimNote 0 0 4 100, claimNote 0 0 4 101] :=
  pixel_c9 10 11 100 101 0 0 4 pxBase (by decide) (by decide)

/-- Case analysis of the auto-start step of submit_answers: either the
quiz was already started and nothing changes, or it is an Auto quiz
past its start time and the started flag is persisted. -/
theorem autoStart_cases {now qid : Nat} {q q2 : QuizSet} {s s1 : QuizState}
    (h : autoStart now qid q s = some (q2, s1)) :
    (q.is_started = true ∧ q2 = q ∧ s1 = s) ∨
    (q.is_started = false ∧ q.start_mode = QuizStartMode.Auto ∧ now ≥ q.start_time ∧
      q2 = { q with is_started := true } ∧ s1 = withStarted s qid q) := by
  unfold autoStart at h
  by_cases h1 : q.is_started = true
  · rw [if_pos h1] at h
    simp only [Option.some.injEq, Prod.mk.injEq] at h
    exact Or.inl ⟨h1, h.1.symm, h.2.symm⟩
  · rw [if_neg h1] at h
    by_cases h2 : q.start_mode = QuizStartMode.Auto ∧ now ≥ q.start_time
    · rw [if_pos h2] at h
      simp only [Option.some.injEq, Prod.mk.injEq] at h
      exact Or.inr ⟨by simpa using h1, h2.1, h2.2, h.1.symm, h.2.symm⟩
    · rw [if_neg h2] at h
      cases h

/-- A submit_answers call that returns an error leaves the state
untouched, except that the auto-start transition may have been
persisted first. -/
theorem submit_answers_error {now : Nat} {sg : Option String} {params : SubmitAnswersParams}
    {s s1 : QuizState} {e : QuizError}
    (h : submit_answers now sg params s = (s1, some e)) :
    s1 = s ∨
    (∃ q0, s.quiz_sets params.quiz_id = some q0 ∧ q0.is_started = false ∧
      q0.start_mode = QuizStartMode.Auto ∧ now ≥ q0.start_time ∧
      s1 = withStarted s params.quiz_id q0) := by
  unfold submit_answers at h
  cases sg with
  | none =>
    simp only [Prod.mk.injEq] at h
    exact Or.inl h.1.symm
  | some w =>
    cases hq : s.quiz_sets params.quiz_id with
    | none =>
      simp only [hq, Prod.mk.injEq] at h
      exact Or.inl h.1.symm
    | some q0 =>
      cases hauto : autoStart now params.quiz_id q0 s with
      | none =>
        simp only [hq, hauto, Prod.mk.injEq] at h
        exact Or.inl h.1.symm
      | some pr =>
        obtain ⟨q, smid⟩ := pr
        simp only [hq, hauto] at h
        have key : s1 = smid := by
          split at h
          · simp only [Prod.mk.injEq] at h
            exact h.1.symm
          · split at h
            · simp only [Prod.mk.injEq] at h
              exact h.1.symm
            · split at h
              · simp only [Prod.mk.injEq] at h
                exact h.1.symm
              · split at h
                · simp only [Prod.mk.injEq] at h
                  exact h.1.symm
                · split at h
                  · simp only [Prod.mk.injEq] at h
                    exact h.1.symm
                  · simp only [Prod.mk.injEq] at h
                    cases h.2
        rcases autoStart_cases hauto with ⟨_, _, hs⟩ | ⟨hst, hmode, hge, _, hs⟩
        · exact Or.inl (key.trans hs)
        · exact Or.inr ⟨q0, rfl, hst, hmode, hge, key.trans hs⟩

/-- A successful submit_answers call decomposes into the auto-start
step, the passed validations, the scoring pass, and the write phase. -/
theorem submit_answers_success {now : Nat} {sg : Option String}
    {params : SubmitAnswersParams} {s s1 : QuizState}
    (h : submit_answers now sg params s = (s1, none)) :
    ∃ w q0 q smid acc,
      sg = some w ∧ s.quiz_sets params.quiz_id = some q0 ∧
      autoStart now params.quiz_id q0 s = some (q, smid) ∧
      now ≤ q.end_time ∧ smid.user_attempts params.quiz_id w = none ∧
      checkParticipant params w q smid = none ∧
      params.answers.length = q.questions.length ∧
      scoreAnswers q.questions params.answers = some acc ∧
      s1 = submitApply now w params q acc smid := by
  unfold submit_answers at h
  cases sg with
  | none => simp at h
  | some w =>
    cases hq : s.quiz_sets params.quiz_id with
    | none => simp only [hq] at h; simp at h
    | some q0 =>
      cases hauto : autoStart now params.quiz_id q0 s with
      | none => simp only [hq, hauto] at h; simp at h
      | some pr =>
        obtain ⟨q, smid⟩ := pr
        simp only [hq, hauto] at h
        by_cases hend : now ≤ q.end_time
        · rw [if_neg (not_not_intro hend)] at h
          cases hatt : smid.user_attempts params.quiz_id w with
          | some a => simp only [hatt] at h; simp at h
          | none =>
            simp only [hatt, Option.isSome_none, Bool.false_eq_true, if_false] at h
            cases hcp : checkParticipant params w q smid with
            | some e2 => simp only [hcp] at h; simp at h
            | none =>
              simp only [hcp] at h
              by_cases hlen : params.answers.length = q.questions.length
              · rw [if_neg (not_not_intro hlen)] at h
                cases hsc : scoreAnswers q.questions params.answers with
                | none => simp only [hsc] at h; simp at h
                | some acc =>
                  simp only [hsc, Prod.mk.injEq] at h
                  exact ⟨w, q0, q, smid, acc, rfl, rfl, hauto, hend, hatt, hcp, hlen, hsc,
                    h.1.symm⟩
              · rw [if_pos hlen] at h
                simp at h
        · rw [if_pos hend] at h
          simp at h

/-- The scoring loop accumulates exactly the per-entry score sum. -/
theorem scoreAnswersGo_score (questions : List Question) :
    ∀ (l : List AnswerOption) (acc acc2 : ScoreAcc),
      scoreAnswersGo questions l acc = some acc2 →
      acc2.score = acc.score + entryScore questions l := by
  intro l
  induction l with
  | nil =>
    intro acc acc2 h
    simp only [scoreAnswersGo, Option.some.injEq] at h
    simp [← h, entryScore]
  | cons a rest ih =>
    intro acc acc2 h
    unfold scoreAnswersGo at h
    cases hf : findQuestionById questions a.question_id with
    | none => rw [hf] at h; cases h
    | some question =>
      rw [hf] at h
      cases hi : questions.findIdx? (fun q => decide (q.id = a.question_id)) with
      | none => rw [hi] at h; cases h
      | some idx =>
        rw [hi] at h
        have h2 := ih _ _ h
        simp only [entryScore, List.map_cons, List.sum_cons, hf] at h2 ⊢
        omega

/-- The user-attempts view written by the success phase of
submit_answers. -/
theorem submitApply_user_attempts (now : Nat) (w : String) (params : SubmitAnswersParams)
    (q : QuizSet) (acc : ScoreAcc) (s1 : QuizState) :
    (submitApply now w params q acc s1).user_attempts =
      updAttempts s1.user_attempts params.quiz_id w
        { quiz_id := params.quiz_id, user := w, nickname := params.nickname
          answers := acc.answers_by_index, score := acc.score
          time_taken := params.time_taken, completed_at := now } := by
  unfold submitApply update_leaderboard
  dsimp only
  split <;> rfl

/-- C6 counterexample: a user re-submitting the display name they
already hold is refused with NicknameAlreadyTaken, although the name
maps to the submitting identity itself, not to a different one. -/
theorem quiz_c6_counterexample :
    stateA.nickname_to_wallet "n" = some "w" ∧
    (set_nickname 5 (some "w") { nickname := "n" } stateA).2 =
      some QuizError.NicknameAlreadyTaken := by
  decide

/-- C6 amended: set_nickname fails with NicknameAlreadyTaken exactly
when the requested name is already mapped to any identity, the
submitting identity included; otherwise it writes the profile, points
the name index at the submitting identity, removes the stale reverse
mapping of the previous name of that identity, and touches no other
name. -/
theorem quiz_c6_amended :
    ∀ now w params s,
      ((∃ w2, s.nickname_to_wallet params.nickname = some w2) →
        set_nickname now (some w) params s = (s, some QuizError.NicknameAlreadyTaken)) ∧
      (s.nickname_to_wallet params.nickname = none →
        ∃ s1, set_nickname now (some w) params s = (s1, none) ∧
          s1.users w = some { wallet_address := w, nickname := params.nickname, created_at := now } ∧
          s1.nickname_to_wallet params.nickname = some w ∧
          (∀ u, s.users w = some u → u.nickname ≠ params.nickname →
            s1.nickname_to_wallet u.nickname = none) ∧
          (∀ n2, n2 ≠ params.nickname → (∀ u, s.users w = some u → n2 ≠ u.nickname) →
            s1.nickname_to_wallet n2 = s.nickname_to_wallet n2)) := by
  intro now w params s
  constructor
  · rintro ⟨w2, hw2⟩
    simp [set_nickname, hw2]
  · intro hnone
    cases hu : s.users w with
    | none =>
      simp only [set_nickname, hnone, hu]
      refine ⟨_, rfl, ?_, ?_, ?_, ?_⟩
      · simp [updStr]
      · simp [updStr]
      · intro u hu2
        simp at hu2
      · intro n2 hne _
        simp [updStr, hne]
    | some u0 =>
      simp only [set_nickname, hnone, hu]
      refine ⟨_, rfl, ?_, ?_, ?_, ?_⟩
      · simp [updStr]
      · simp [updStr]
      · intro u hu2 hne
        injection hu2 with h3
        subst h3
        simp [updStr, hne]
      · intro n2 hne hne2
        have hne3 : n2 ≠ u0.nickname := hne2 u0 rfl
        simp [updStr, hne, hne3]

/-- C6 amended witness: taking the already-mapped name n fails; taking
the fresh name m succeeds for the concrete fixture state. -/
theorem quiz_c6_amended_witness :
    (set_nickname 5 (some "w") { nickname := "n" } stateA =
      (stateA, some QuizError.NicknameAlreadyTaken)) ∧
    (∃ s1, set_nickname 5 (some "w") { nickname := "m" } stateA = (s1, none) ∧
      s1.users "w" = some { wallet_address := "w", nickname := "m", created_at := 5 } ∧
      s1.nickname_to_wallet "m" = some "w" ∧
      (∀ u, stateA.users "w" = some u → u.nickname ≠ "m" →
        s1.nickname_to_wallet u.nickname = none) ∧
      (∀ n2, n2 ≠ "m" → (∀ u, stateA.users "w" = some u → n2 ≠ u.nickname) →
        s1.nickname_to_wallet n2 = stateA.nickname_to_wallet n2)) :=
  ⟨(quiz_c6_amended 5 "w" { nickname := "n" } stateA).1 ⟨"w", by decide⟩,
    (quiz_c6_amended 5 "w" { nickname := "m" } stateA).2 (by decide)⟩

/-- C3 counterexample: after a first successful submission for quiz 1
by wallet w at time 150, a second submission by the same identity at
time 250, past the end of the quiz, returns InvalidParameters rather
than the UserAlreadyAttempted required by the claim for every later
call. -/
theorem quiz_c3_counterexample :
    (submit_answers 150 (some "w") paramsOk stateA).2 = none ∧
    (stateB.user_attempts 1 "w").isSome = true ∧
    (submit_answers 250 (some "w") paramsOk stateB).2 = some QuizError.InvalidParameters ∧
    some QuizError.InvalidParameters ≠ some QuizError.UserAlreadyAttempted := by
  decide

/-- C3 amended: while the quiz has not ended (and it is necessarily
already started after the first success), a later submission by the
same identity returns UserAlreadyAttempted with the state untouched;
and whatever the time of a later call, the stored attempt record of
that identity is never changed. -/
theorem quiz_c3_amended :
    (∀ now w params s att q, s.user_attempts params.quiz_id w = some att →
        s.quiz_sets params.quiz_id = some q → q.is_started = true → now ≤ q.end_time →
        submit_answers now (some w) params s = (s, some QuizError.UserAlreadyAttempted)) ∧
    (∀ now w params s att, s.user_attempts params.quiz_id w = some att →
        (submit_answers now (some w) params s).1.user_attempts params.quiz_id w = some att) := by
  constructor
  · intro now w params s att q hatt hq hst hend
    simp [submit_answers, hq, autoStart, hst, hend, hatt]
  · intro now w params s att hatt
    cases hres : submit_answers now (some w) params s with
    | mk s1 r =>
      cases r with
      | none =>
        exfalso
        obtain ⟨w2, q0, q, smid, acc, hw2, hq, hauto, _, hnone2, _, _, _, _⟩ :=
          submit_answers_success hres
        injection hw2 with hw3
        subst hw3
        rcases autoStart_cases hauto with ⟨_, _, hs⟩ | ⟨_, _, _, _, hs⟩ <;> subst hs <;>
          simp [withStarted, hatt] at hnone2
      | some e =>
        show s1.user_attempts params.quiz_id w = some att
        rcases submit_answers_error hres with hs | ⟨q0, _, _, _, _, hs⟩ <;> subst hs <;>
          simpa [withStarted] using hatt

/-- C3 amended witness: the second submission at time 160, before the
end of the quiz, on the state left by the first success. -/
theorem quiz_c3_amended_witness :
    stateB.user_attempts 1 "w" = some attemptOk ∧
    stateB.quiz_sets 1 = some quizADone ∧
    submit_answers 160 (some "w") paramsOk stateB = (stateB, some QuizError.UserAlreadyAttempted) ∧
    (submit_answers 250 (some "w") paramsOk stateB).1.user_attempts 1 "w" = some attemptOk :=
  ⟨by decide, by decide,
    quiz_c3_amended.1 160 "w" paramsOk stateB attemptOk quizADone (by decide) (by decide)
      (by decide) (by decide),
    quiz_c3_amended.2 250 "w" paramsOk stateB attemptOk (by decide)⟩

/-- C2 counterexample: a submission carrying the correct options of
question q1-0 twice is accepted and scores 14, exceeding the 12 points
of the whole quiz, so no per-question sum can equal it; the stored
answer table leaves question q1-1 unanswered and the per-question sum
over that table is 7. -/
theorem quiz_c2_counterexample :
    (submit_answers 150 (some "w") paramsDup stateA).2 = none ∧
    ((submit_answers 150 (some "w") paramsDup stateA).1.user_attempts 1 "w").map
      UserAttempt.score = some 14 ∧
    ((submit_answers 150 (some "w") paramsDup stateA).1.user_attempts 1 "w").map
      UserAttempt.answers = some [[0], []] ∧
    (quizA.questions.map Question.points).sum = 12 ∧
    claimScore quizA.questions [[0], []] = 7 := by
  decide

/-- C2 amended: every accepted submission carries exactly as many
answers as the quiz has questions (so fewer answers are always
rejected), and its recorded score is the sum over the submitted answer
entries of the points of the question each entry names, counted on
sorted-equality of the option lists, so a duplicated question id is
scored once per entry; under the stated validation hypotheses a
submission with fewer answers fails with InvalidParameters. -/
theorem quiz_c2_amended :
    (∀ now sg params s s1, submit_answers now sg params s = (s1, none) →
      ∃ w q, sg = some w ∧ s.quiz_sets params.quiz_id = some q ∧
        params.answers.length = q.questions.length ∧
        (s1.user_attempts params.quiz_id w).map UserAttempt.score =
          some (entryScore q.questions params.answers)) ∧
    (∀ now w params s q u, s.quiz_sets params.quiz_id = some q → q.is_started = true →
      now ≤ q.end_time → s.user_attempts params.quiz_id w = none → q.mode = QuizMode.Public →
      s.users w = some u → u.nickname = params.nickname →
      params.answers.length < q.questions.length →
      submit_answers now (some w) params s = (s, some QuizError.InvalidParameters)) := by
  constructor
  · intro now sg params s s1 h
    obtain ⟨w, q0, q, smid, acc, hw, hq, hauto, hend, hnone, hcp, hlen, hsc, hs1⟩ :=
      submit_answers_success h
    subst hw
    have hqq : q.questions = q0.questions := by
      rcases autoStart_cases hauto with ⟨_, hq2, _⟩ | ⟨_, _, _, hq2, _⟩ <;> subst hq2 <;> rfl
    have hscore : acc.score = entryScore q0.questions params.answers := by
      have h2 := scoreAnswersGo_score q.questions params.answers _ _ hsc
      simpa [hqq] using h2
    refine ⟨w, q0, rfl, hq, by rw [← hqq]; exact hlen, ?_⟩
    subst hs1
    rw [submitApply_user_attempts]
    simp [updAttempts, hscore]
  · intro now w params s q u hq hst hend hatt hmode hu hnick hlen
    simp [submit_answers, hq, autoStart, hst, hend, hatt, checkParticipant, hmode, hu, hnick,
      Nat.ne_of_lt hlen]

/-- C2 amended witness: the well-formed two-answer submission on the
fixture state, and the one-answer submission rejected on the started
fixture quiz. -/
theorem quiz_c2_amended_witness :
    (∃ w q, some "w" = some w ∧ stateA.quiz_sets 1 = some q ∧
      paramsOk.answers.length = q.questions.length ∧
      (stateB.user_attempts 1 w).map UserAttempt.score =
        some (entryScore q.questions paramsOk.answers)) ∧
    submit_answers 150 (some "w") paramsShort stateAS =
      (stateAS, some QuizError.InvalidParameters) :=
  ⟨quiz_c2_amended.1 150 (some "w") paramsOk stateA stateB rfl,
    quiz_c2_amended.2 150 "w" paramsShort stateAS quizAStarted userW (by decide) (by decide)
      (by decide) (by decide) (by decide) (by decide) (by decide) (by decide)⟩

/-- A set_nickname call that returns an error leaves the state
untouched. -/
theorem set_nickname_state_of_error {now : Nat} {sg : Option String}
    {p : SetNicknameParams} {s s1 : QuizState} {e : QuizError}
    (h : set_nickname now sg p s = (s1, some e)) : s1 = s := by
  unfold set_nickname at h
  cases sg with
  | none =>
    simp only [Prod.mk.injEq] at h
    exact h.1.symm
  | some w =>
    cases hn : s.nickname_to_wallet p.nickname with
    | some w2 =>
      simp only [hn, Prod.mk.injEq] at h
      exact h.1.symm
    | none =>
      simp only [hn] at h
      cases hu : s.users w <;> simp only [hu] at h <;> simp at h

/-- The validation phase of create_quiz never produces the fatal
InternalError code; that code is reserved for the counter overflow. -/
theorem createValidate_not_internal {now : Nat} {p : CreateQuizParams} {e : QuizError}
    (h : createValidate now p = Except.error e) : e ≠ QuizError.InternalError := by
  unfold createValidate at h
  dsimp only at h
  repeat' split at h
  all_goals first
    | (injection h with h2; subst h2; decide)
    | exact Except.noConfusion h

/-- Full case analysis of create_quiz: either it fails with a
non-InternalError error and leaves the state untouched, or it stores a
fresh quiz with participant counter zero under the current id counter,
touching no attempt, participant or leaderboard view, and then either
succeeds and bumps the counter or fails with the overflow InternalError
leaving the counter in place. -/
theorem create_quiz_cases (now : Nat) (sg : Option String) (p : CreateQuizParams)
    (s : QuizState) :
    ((create_quiz now sg p s).1 = s ∧ (create_quiz now sg p s).2.isSome = true ∧
      (create_quiz now sg p s).2 ≠ some QuizError.InternalError) ∨
    (∃ qz : QuizSet, qz.participant_count = 0 ∧ qz.id = s.next_quiz_id ∧
      (create_quiz now sg p s).1.quiz_sets = updNat s.quiz_sets s.next_quiz_id (some qz) ∧
      (create_quiz now sg p s).1.user_attempts = s.user_attempts ∧
      (create_quiz now sg p s).1.quiz_participants = s.quiz_participants ∧
      (create_quiz now sg p s).1.leaderboard = s.leaderboard ∧
      (create_quiz now sg p s).1.users = s.users ∧
      (((create_quiz now sg p s).2 = none ∧
          (create_quiz now sg p s).1.next_quiz_id = s.next_quiz_id + 1) ∨
        ((create_quiz now sg p s).2 = some QuizError.InternalError ∧
          (create_quiz now sg p s).1.next_quiz_id = s.next_quiz_id))) := by
  cases sg with
  | none => exact Or.inl ⟨rfl, rfl, by simp [create_quiz]⟩
  | some w =>
    cases hu : s.users w with
    | none =>
      refine Or.inl ⟨?_, ?_, ?_⟩ <;> simp [create_quiz, hu]
    | some u =>
      cases hv : createValidate now p with
      | error e =>
        refine Or.inl ⟨?_, ?_, ?_⟩ <;> simp [create_quiz, hu, hv]
        exact createValidate_not_internal hv
      | ok data =>
        obtain ⟨st, et, mode, smode⟩ := data
        have hc : create_quiz now (some w) p s = createApply now w u p st et mode smode s := by
          simp [create_quiz, hu, hv]
        rw [hc]
        by_cases hov : s.next_quiz_id + 1 > U64MAX
        · refine Or.inr ⟨createdQuizSet now w u p st et mode smode s.next_quiz_id,
            rfl, rfl, ?_, ?_, ?_, ?_, ?_, Or.inr ⟨?_, ?_⟩⟩ <;> simp [createApply, hov]
        · refine Or.inr ⟨createdQuizSet now w u p st et mode smode s.next_quiz_id,
            rfl, rfl, ?_, ?_, ?_, ?_, ?_, Or.inl ⟨?_, ?_⟩⟩ <;> simp [createApply, hov]

/-- A create_quiz call that returns an error other than the
counter-overflow InternalError leaves the state untouched. -/
theorem create_quiz_state_of_error {now : Nat} {sg : Option String}
    {p : CreateQuizParams} {s s1 : QuizState} {e : QuizError}
    (h : create_quiz now sg p s = (s1, some e)) (hne : e ≠ QuizError.InternalError) :
    s1 = s := by
  rcases create_quiz_cases now sg p s with ⟨h1, _, _⟩ | ⟨qz, _, _, _, _, _, _, _, hlast⟩
  · rw [h] at h1
    exact h1
  · rcases hlast with ⟨h2, _⟩ | ⟨h2, _⟩
    · rw [h] at h2
      cases h2
    · rw [h] at h2
      injection h2 with h3
      exact absurd h3 hne

/-- A start_quiz call that returns an error leaves the state
untouched. -/
theorem start_quiz_state_of_error {now : Nat} {sg : Option String}
    {qid : Nat} {s s1 : QuizState} {e : QuizError}
    (h : start_quiz now sg qid s = (s1, some e)) : s1 = s := by
  unfold start_quiz at h
  repeat' split at h
  all_goals simp only [Prod.mk.injEq, Option.some.injEq] at h
  all_goals first
    | exact h.1.symm
    | cases h.2

/-- A register_for_quiz call that returns an error leaves the state
untouched. -/
theorem register_for_quiz_state_of_error {now : Nat} {sg : Option String}
    {qid : Nat} {s s1 : QuizState} {e : QuizError}
    (h : register_for_quiz now sg qid s = (s1, some e)) : s1 = s := by
  unfold register_for_quiz at h
  repeat' split at h
  all_goals simp only [Prod.mk.injEq, Option.some.injEq] at h
  all_goals first
    | exact h.1.symm
    | cases h.2

/-- C1 counterexample: the submission at time 250 to the not-yet-started
Auto quiz with window 100 to 200 returns the recoverable
InvalidParameters error, yet the call has persisted the started flag of
the quiz, so it did not apply nothing. -/
theorem quiz_c1_counterexample :
    (submit_answers 250 (some "w") paramsOk stateA).2 = some QuizError.InvalidParameters ∧
    ((submit_answers 250 (some "w") paramsOk stateA).1.quiz_sets 1).map QuizSet.is_started =
      some true ∧
    (stateA.quiz_sets 1).map QuizSet.is_started = some false := by
  decide

/-- C1 amended: an authority-context operation that returns a
recoverable (non-InternalError) error applies nothing, with one
exception: submit_answers on a not-yet-started Auto-mode quiz whose
start time has passed persists the started flag of that quiz before any
later validation failure, and such a failing call changes exactly that
record and nothing else. -/
theorem quiz_c1_amended :
    ∀ now sg op s s1 e, execute_operation now sg op s = (s1, some e) →
      e ≠ QuizError.InternalError →
      s1 = s ∨ ∃ params q0, op = Operation.SubmitAnswers params ∧
        s.quiz_sets params.quiz_id = some q0 ∧ q0.is_started = false ∧
        q0.start_mode = QuizStartMode.Auto ∧ now ≥ q0.start_time ∧
        s1 = withStarted s params.quiz_id q0 := by
  intro now sg op s s1 e h hne
  cases op with
  | SetNickname p => exact Or.inl (set_nickname_state_of_error h)
  | CreateQuiz p => exact Or.inl (create_quiz_state_of_error h hne)
  | SubmitAnswers p =>
    rcases submit_answers_error h with hs | ⟨q0, hq, hst, hmode, hge, hs⟩
    · exact Or.inl hs
    · exact Or.inr ⟨p, q0, rfl, hq, hst, hmode, hge, hs⟩
  | StartQuiz qid => exact Or.inl (start_quiz_state_of_error h)
  | RegisterForQuiz qid => exact Or.inl (register_for_quiz_state_of_error h)

/-- C1 amended witness: the duplicate-nickname failure on the fixture
state, through the operation dispatcher. -/
theorem quiz_c1_amended_witness :
    execute_operation 5 (some "w") (Operation.SetNickname { nickname := "n" }) stateA =
      (stateA, some QuizError.NicknameAlreadyTaken) ∧
    (stateA = stateA ∨ ∃ params q0,
      Operation.SetNickname { nickname := "n" } = Operation.SubmitAnswers params ∧
      stateA.quiz_sets params.quiz_id = some q0 ∧ q0.is_started = false ∧
      q0.start_mode = QuizStartMode.Auto ∧ 5 ≥ q0.start_time ∧
      stateA = withStarted stateA params.quiz_id q0) :=
  ⟨rfl, quiz_c1_amended 5 (some "w") (Operation.SetNickname { nickname := "n" }) stateA stateA
    QuizError.NicknameAlreadyTaken rfl (by decide)⟩

/-- The nickname operation never moves the quiz id counter. -/
theorem set_nickname_next (now : Nat) (sg : Option String) (p : SetNicknameParams)
    (s : QuizState) : ((set_nickname now sg p s).1).next_quiz_id = s.next_quiz_id := by
  unfold set_nickname
  cases sg with
  | none => rfl
  | some w =>
    dsimp only
    cases s.nickname_to_wallet p.nickname with
    | some _ => rfl
    | none =>
      dsimp only
      cases s.users w <;> rfl

/-- The manual start operation never moves the quiz id counter. -/
theorem start_quiz_next (now : Nat) (sg : Option String) (qid : Nat)
    (s : QuizState) : ((start_quiz now sg qid s).1).next_quiz_id = s.next_quiz_id := by
  unfold start_quiz
  cases sg with
  | none => rfl
  | some w =>
    dsimp only
    cases s.quiz_sets qid with
    | none => rfl
    | some q =>
      dsimp only
      split_ifs <;> rfl

/-- The registration operation never moves the quiz id counter. -/
theorem register_for_quiz_next (now : Nat) (sg : Option String) (qid : Nat)
    (s : QuizState) : ((register_for_quiz now sg qid s).1).next_quiz_id = s.next_quiz_id := by
  unfold register_for_quiz
  cases sg with
  | none => rfl
  | some w =>
    dsimp only
    cases s.quiz_sets qid with
    | none => rfl
    | some q =>
      dsimp only
      split_ifs <;> try rfl
      all_goals cases s.users w <;> rfl

/-- The success phase of a submission never moves the quiz id
counter. -/
theorem submitApply_next (now : Nat) (w : String) (params : SubmitAnswersParams)
    (q : QuizSet) (acc : ScoreAcc) (s1 : QuizState) :
    (submitApply now w params q acc s1).next_quiz_id = s1.next_quiz_id := by
  unfold submitApply update_leaderboard
  dsimp only
  split <;> rfl

/-- Submitting answers never moves the quiz id counter. -/
theorem submit_answers_next (now : Nat) (sg : Option String) (p : SubmitAnswersParams)
    (s : QuizState) : ((submit_answers now sg p s).1).next_quiz_id = s.next_quiz_id := by
  cases hres : submit_answers now sg p s with
  | mk s1 r =>
    cases r with
    | some e =>
      show s1.next_quiz_id = s.next_quiz_id
      rcases submit_answers_error hres with hs | ⟨q0, _, _, _, _, hs⟩ <;> subst hs <;> rfl
    | none =>
      show s1.next_quiz_id = s.next_quiz_id
      obtain ⟨w, q0, q, smid, acc, _, _, hauto, _, _, _, _, _, hs1⟩ :=
        submit_answers_success hres
      subst hs1
      rw [submitApply_next]
      rcases autoStart_cases hauto with ⟨_, _, hs⟩ | ⟨_, _, _, _, hs⟩ <;> subst hs <;> rfl

/-- Each call moves the id counter by exactly the number of ids it
assigns, and assigns either nothing or the current counter value. -/
theorem exec_next_assigned (c : OpCall) (s : QuizState) :
    (execute_operation c.now c.signer c.op s).1.next_quiz_id =
      s.next_quiz_id + (assignedIds c s).length ∧
    (assignedIds c s = [] ∨ assignedIds c s = [s.next_quiz_id]) := by
  obtain ⟨n, sg, op⟩ := c
  cases op with
  | SetNickname p =>
    exact ⟨set_nickname_next n sg p s, Or.inl rfl⟩
  | SubmitAnswers p =>
    exact ⟨submit_answers_next n sg p s, Or.inl rfl⟩
  | StartQuiz qid =>
    exact ⟨start_quiz_next n sg qid s, Or.inl rfl⟩
  | RegisterForQuiz qid =>
    exact ⟨register_for_quiz_next n sg qid s, Or.inl rfl⟩
  | CreateQuiz p =>
    rcases create_quiz_cases n sg p s with ⟨h1, h2, _⟩ | ⟨qz, _, _, _, _, _, _, _, hlast⟩
    · cases hr : (create_quiz n sg p s).2 with
      | none => rw [hr] at h2; cases h2
      | some e =>
        constructor
        · have : assignedIds ⟨n, sg, Operation.CreateQuiz p⟩ s = [] := by
            unfold assignedIds
            simp only [execute_operation, hr]
          dsimp only
          simp only [execute_operation]
          rw [h1, this]
          rfl
        · left
          unfold assignedIds
          simp only [execute_operation, hr]
    · rcases hlast with ⟨hr, hn⟩ | ⟨hr, hn⟩
      · have ha : assignedIds ⟨n, sg, Operation.CreateQuiz p⟩ s = [s.next_quiz_id] := by
          unfold assignedIds
          simp only [execute_operation, hr]
        rw [ha]
        exact ⟨hn, Or.inr rfl⟩
      · have ha : assignedIds ⟨n, sg, Operation.CreateQuiz p⟩ s = [] := by
          unfold assignedIds
          simp only [execute_operation, hr]
        rw [ha]
        exact ⟨hn, Or.inl rfl⟩

/-- The ids collected by a run of calls form the arithmetic progression
starting at the initial counter value. -/
theorem runOps_ids : ∀ (calls : List OpCall) (s : QuizState),
    (runOps calls s).2 = List.range' s.next_quiz_id (runOps calls s).2.length := by
  intro calls
  induction calls with
  | nil => intro s; rfl
  | cons c rest ih =>
    intro s
    obtain ⟨hnext, hass⟩ := exec_next_assigned c s
    simp only [runOps]
    rcases hass with ha | ha <;> rw [ha] <;> rw [ha] at hnext
    · simp only [List.nil_append, List.length_nil, Nat.add_zero] at hnext ⊢
      have h2 := ih (execute_operation c.now c.signer c.op s).1
      rw [hnext] at h2
      exact h2
    · simp only [List.length_singleton] at hnext
      simp only [List.singleton_append, List.length_cons]
      rw [List.range'_succ]
      have h2 := ih (execute_operation c.now c.signer c.op s).1
      rw [hnext] at h2
      conv_lhs => rw [h2]

/-- C7 counterexample: with the current time 0, the pair of millisecond
timestamps 100000000000000 and 100000000000001 satisfies every window
condition of the claim (start after now, end after start, span well
under 100 years), the creator exists and the mode strings are valid,
yet creation fails with InvalidParameters because the 15-digit
timestamps exceed the plausible-magnitude bound of the code. -/
theorem quiz_c7_counterexample :
    parseU64 createParamsBig.start_time = some 100000000000000 ∧
    parseU64 createParamsBig.end_time = some 100000000000001 ∧
    100000000000000 * 1000 > 0 ∧
    100000000000001 * 1000 > 100000000000000 * 1000 ∧
    100000000000001 * 1000 - 100000000000000 * 1000 ≤ HUNDRED_YEARS_MICROS ∧
    stateA.users "w" = some userW ∧
    (parseQuizMode createParamsBig.mode).isSome = true ∧
    (parseStartMode createParamsBig.start_mode).isSome = true ∧
    (create_quiz 0 (some "w") createParamsBig stateA).2 = some QuizError.InvalidParameters := by
  decide

/-- C7 amended: quiz creation by a registered identity with valid mode
strings succeeds for every (start, end) millisecond pair of plausible
magnitude (10 to 14 decimal digits, microsecond values inside the u64
range) with start after now, end after start and a span of at most 100
years, storing the new quiz under the current counter value; and the
ids assigned by the successful creations of any call sequence on the
instantiated authority chain start at 1 and increase by exactly 1 per
successful creation. -/
theorem quiz_c7_amended :
    (∀ now w u params s sm em m sm2,
      s.users w = some u →
      parseU64 params.start_time = some sm →
      10 ≤ (Nat.repr sm).length → (Nat.repr sm).length ≤ 14 → sm * 1000 ≤ U64MAX →
      parseU64 params.end_time = some em →
      10 ≤ (Nat.repr em).length → (Nat.repr em).length ≤ 14 → em * 1000 ≤ U64MAX →
      sm * 1000 > now → em * 1000 > sm * 1000 →
      em * 1000 - sm * 1000 ≤ HUNDRED_YEARS_MICROS →
      parseQuizMode params.mode = some m →
      parseStartMode params.start_mode = some sm2 →
      s.next_quiz_id + 1 ≤ U64MAX →
      (create_quiz now (some w) params s).2 = none ∧
      (create_quiz now (some w) params s).1.next_quiz_id = s.next_quiz_id + 1 ∧
      (create_quiz now (some w) params s).1.quiz_sets s.next_quiz_id =
        some (createdQuizSet now w u params (sm * 1000) (em * 1000) m sm2 s.next_quiz_id)) ∧
    (∀ calls s0, s0.next_quiz_id = 0 →
      (runOps calls (instantiate s0)).2 =
        List.range' 1 (runOps calls (instantiate s0)).2.length) := by
  constructor
  · intro now w u params s sm em m sm2 hu hps h10s h14s hms hpe h10e h14e hme hstart hend
      hspan hm hsm2 hov
    have hv : createValidate now params = Except.ok (sm * 1000, em * 1000, m, sm2) := by
      unfold createValidate
      simp only [hps, hpe, hm, hsm2]
      rw [if_neg (not_not_intro ⟨h10s, h14s⟩)]
      rw [if_neg (Nat.not_lt.mpr hms)]
      try dsimp only
      rw [if_neg (not_not_intro ⟨h10e, h14e⟩)]
      rw [if_neg (Nat.not_lt.mpr hme)]
      try dsimp only
      rw [if_neg (not_not_intro hstart)]
      rw [if_neg (not_not_intro hend)]
      rw [if_neg (not_not_intro hspan)]
    have hc : create_quiz now (some w) params s =
        createApply now w u params (sm * 1000) (em * 1000) m sm2 s := by
      simp [create_quiz, hu, hv]
    rw [hc]
    have hno : ¬ s.next_quiz_id + 1 > U64MAX := Nat.not_lt.mpr hov
    refine ⟨?_, ?_, ?_⟩ <;> simp [createApply, hno, updNat]
  · intro calls s0 h0
    have h1 : (instantiate s0).next_quiz_id = 1 := by
      unfold instantiate
      rw [if_pos h0]
    have h2 := runOps_ids calls (instantiate s0)
    rw [h1] at h2
    exact h2

/-- C7 amended witness: the concrete creation on the fixture state and
the empty call sequence from the empty instantiated state. -/
theorem quiz_c7_amended_witness :
    ((create_quiz 1700000000000000 (some "w") createParams stateA).2 = none ∧
      (create_quiz 1700000000000000 (some "w") createParams stateA).1.next_quiz_id = 3 ∧
      (create_quiz 1700000000000000 (some "w") createParams stateA).1.quiz_sets 2 =
        some (createdQuizSet 1700000000000000 "w" userW createParams 1800000000000000
          1800000000001000 QuizMode.Public QuizStartMode.Auto 2)) ∧
    (runOps [] (instantiate initialState)).2 =
      List.range' 1 (runOps [] (instantiate initialState)).2.length :=
  ⟨quiz_c7_amended.1 1700000000000000 "w" userW createParams stateA 1800000000000
      1800000000001 QuizMode.Public QuizStartMode.Auto (by decide) (by decide) (by decide)
      (by decide) (by decide) (by decide) (by decide) (by decide) (by decide) (by decide)
      (by decide) (by decide) (by decide) (by decide) (by decide),
    quiz_c7_amended.2 [] initialState rfl⟩

/-- A successful index search returns the index of an element
satisfying the predicate. -/
theorem findIdx?_some_getElem {α : Type} (p : α → Bool) :
    ∀ (l : List α) (j i : Nat), List.findIdx? p l j = some i →
      ∃ k e, l[k]? = some e ∧ p e = true ∧ i = j + k := by
  intro l
  induction l with
  | nil => intro j i h; cases h
  | cons a t ih =>
    intro j i h
    rw [List.findIdx?_cons] at h
    by_cases hp : p a
    · rw [if_pos hp] at h
      injection h with h2
      exact ⟨0, a, by simp, hp, by omega⟩
    · rw [if_neg hp] at h
      obtain ⟨k, e, hk, he, hi⟩ := ih (j + 1) i h
      exact ⟨k + 1, e, by simpa using hk, he, by omega⟩

/-- Replacing a list element by one with the same user keeps the
one-entry-per-user property. -/
theorem onePerUser_set :
    ∀ (l : List LeaderboardEntry) (i : Nat) (e v : LeaderboardEntry),
      OnePerUser l → l[i]? = some e → v.user = e.user → OnePerUser (l.set i v) := by
  intro l
  induction l with
  | nil => intro i e v _ h; cases h
  | cons a t ih =>
    intro i e v hp hget huser
    rcases List.pairwise_cons.mp hp with ⟨ha, ht⟩
    cases i with
    | zero =>
      simp only [List.getElem?_cons_zero, Option.some.injEq] at hget
      subst hget
      show OnePerUser (v :: t)
      refine List.pairwise_cons.mpr ⟨?_, ht⟩
      intro b hb
      rw [huser]
      exact ha b hb
    | succ n =>
      simp only [List.getElem?_cons_succ] at hget
      show OnePerUser (a :: t.set n v)
      refine List.pairwise_cons.mpr ⟨?_, ih n e v ht hget huser⟩
      intro b hb
      rcases List.mem_or_eq_of_mem_set hb with hbt | hbv
      · exact ha b hbt
      · subst hbv
        rw [huser]
        exact ha e (List.getElem?_mem hget)

/-- The in-place entry update keeps at most one entry per user. -/
theorem updatedEntries_onePerUser (entries : List LeaderboardEntry) (user : String)
    (score : Nat) (hp : OnePerUser entries) :
    OnePerUser (updatedEntries entries user score) := by
  unfold updatedEntries
  cases hf : entries.findIdx? (fun entry => decide (entry.user = user)) with
  | none =>
    have hall := List.findIdx?_eq_none_iff.mp hf
    refine List.pairwise_append.mpr ⟨hp, List.pairwise_singleton _ _, ?_⟩
    intro a ha b hb
    rw [List.mem_singleton.mp hb]
    have := hall a ha
    simpa using this
  | some index =>
    dsimp only
    cases hg : entries[index]? with
    | none => exact hp
    | some e => exact onePerUser_set entries index e _ hp hg rfl

/-- The descending re-sort keeps at most one entry per user. -/
theorem sortByScoreDesc_onePerUser (l : List LeaderboardEntry) (hp : OnePerUser l) :
    OnePerUser (sortByScoreDesc l) :=
  hp.perm (List.perm_insertionSort _ l).symm (fun h => Ne.symm h)

/-- The descending re-sort always produces a score-sorted list. -/
theorem sortByScoreDesc_sorted (l : List LeaderboardEntry) :
    ScoreSorted (sortByScoreDesc l) :=
  List.sorted_insertionSort (fun a b : LeaderboardEntry => b.score ≤ a.score) l

/-- One leaderboard refresh keeps the invariant on every stored
list. -/
theorem update_leaderboard_inv (quiz_id : Nat) (user : String) (score : Nat)
    (s : QuizState) (h : LeaderboardInv s) :
    LeaderboardInv (update_leaderboard quiz_id user score s) := by
  intro qid2
  unfold update_leaderboard
  dsimp only
  by_cases hq : qid2 = quiz_id
  · subst hq
    simp only [updNat, if_pos rfl]
    exact ⟨sortByScoreDesc_onePerUser _ (updatedEntries_onePerUser _ _ _ (h qid2).1),
      sortByScoreDesc_sorted _⟩
  · simp only [updNat, if_neg hq]
    exact h qid2

/-- The leaderboard view written by the success phase of
submit_answers. -/
theorem submitApply_leaderboard (now : Nat) (w : String) (params : SubmitAnswersParams)
    (q : QuizSet) (acc : ScoreAcc) (s1 : QuizState) :
    (submitApply now w params q acc s1).leaderboard =
      updNat s1.leaderboard params.quiz_id
        (sortByScoreDesc (updatedEntries (s1.leaderboard params.quiz_id) w acc.score)) := by
  unfold submitApply update_leaderboard
  dsimp only
  split <;> rfl

/-- The nickname operation leaves the quiz, attempt, participant and
leaderboard views and the id counter untouched. -/
theorem set_nickname_frame (now : Nat) (sg : Option String) (p : SetNicknameParams)
    (s : QuizState) :
    (set_nickname now sg p s).1.quiz_sets = s.quiz_sets ∧
    (set_nickname now sg p s).1.user_attempts = s.user_attempts ∧
    (set_nickname now sg p s).1.quiz_participants = s.quiz_participants ∧
    (set_nickname now sg p s).1.leaderboard = s.leaderboard := by
  unfold set_nickname
  cases sg with
  | none => exact ⟨rfl, rfl, rfl, rfl⟩
  | some w =>
    dsimp only
    cases s.nickname_to_wallet p.nickname with
    | some _ => exact ⟨rfl, rfl, rfl, rfl⟩
    | none =>
      dsimp only
      cases s.users w <;> exact ⟨rfl, rfl, rfl, rfl⟩

/-- Case analysis of start_quiz: failure leaves the state untouched,
success overwrites the quiz record with its started flag set. -/
theorem start_quiz_cases (now : Nat) (sg : Option String) (qid : Nat) (s : QuizState) :
    ((start_quiz now sg qid s).1 = s) ∨
    (∃ q, s.quiz_sets qid = some q ∧
      (start_quiz now sg qid s).1 =
        { s with quiz_sets := updNat s.quiz_sets qid (some { q with is_started := true }) }) := by
  unfold start_quiz
  cases sg with
  | none => exact Or.inl rfl
  | some w =>
    dsimp only
    cases hq : s.quiz_sets qid with
    | none => exact Or.inl rfl
    | some q =>
      dsimp only
      split_ifs <;> first
        | exact Or.inl rfl
        | exact Or.inr ⟨q, rfl, rfl⟩

/-- Case analysis of register_for_quiz: failure leaves the state
untouched, success overwrites the quiz record with the wallet appended
to its registered list. -/
theorem register_for_quiz_cases (now : Nat) (sg : Option String) (qid : Nat)
    (s : QuizState) :
    ((register_for_quiz now sg qid s).1 = s) ∨
    (∃ q w, s.quiz_sets qid = some q ∧
      (register_for_quiz now sg qid s).1 = withRegistered s qid q w) := by
  unfold register_for_quiz
  cases sg with
  | none => exact Or.inl rfl
  | some w =>
    dsimp only
    cases hq : s.quiz_sets qid with
    | none => exact Or.inl rfl
    | some q =>
      dsimp only
      split_ifs <;> try exact Or.inl rfl
      all_goals cases s.users w
      all_goals first
        | exact Or.inl rfl
        | exact Or.inr ⟨q, w, rfl, rfl⟩

/-- C8 confirmed: one leaderboard refresh on a list with at most one
entry per identity yields a stored list with at most one entry per
identity, sorted by score descending; every authority operation
preserves that invariant for all stored leaderboard lists, which hold
it in the initial state. -/
theorem quiz_c8 :
    (∀ quiz_id user score s, OnePerUser (s.leaderboard quiz_id) →
      OnePerUser ((update_leaderboard quiz_id user score s).leaderboard quiz_id) ∧
      ScoreSorted ((update_leaderboard quiz_id user score s).leaderboard quiz_id)) ∧
    (∀ now sg op s, LeaderboardInv s → LeaderboardInv (execute_operation now sg op s).1) ∧
    LeaderboardInv initialState := by
  refine ⟨?_, ?_, ?_⟩
  · intro quiz_id user score s hp
    unfold update_leaderboard
    dsimp only
    simp only [updNat, if_pos rfl]
    exact ⟨sortByScoreDesc_onePerUser _ (updatedEntries_onePerUser _ _ _ hp),
      sortByScoreDesc_sorted _⟩
  · intro now sg op s h
    cases op with
    | SetNickname p =>
      have hf := (set_nickname_frame now sg p s).2.2.2
      intro qid
      show OnePerUser ((set_nickname now sg p s).1.leaderboard qid) ∧
        ScoreSorted ((set_nickname now sg p s).1.leaderboard qid)
      rw [hf]
      exact h qid
    | CreateQuiz p =>
      show LeaderboardInv (create_quiz now sg p s).1
      rcases create_quiz_cases now sg p s with ⟨h1, _, _⟩ | ⟨qz, _, _, _, _, _, hlb, _, _⟩
      · rw [h1]
        exact h
      · intro qid
        rw [hlb]
        exact h qid
    | StartQuiz qid2 =>
      show LeaderboardInv (start_quiz now sg qid2 s).1
      rcases start_quiz_cases now sg qid2 s with h1 | ⟨q, _, h1⟩ <;> rw [h1]
      · exact h
      · intro qid
        exact h qid
    | RegisterForQuiz qid2 =>
      show LeaderboardInv (register_for_quiz now sg qid2 s).1
      rcases register_for_quiz_cases now sg qid2 s with h1 | ⟨q, w, _, h1⟩ <;> rw [h1]
      · exact h
      · intro qid
        exact h qid
    | SubmitAnswers p =>
      cases hres : submit_answers now sg p s with
      | mk s1 r =>
        have hgoal : LeaderboardInv s1 → LeaderboardInv (execute_operation now sg
            (Operation.SubmitAnswers p) s).1 := by
          intro hx
          show LeaderboardInv (submit_answers now sg p s).1
          rw [hres]
          exact hx
        apply hgoal
        cases r with
        | some e =>
          rcases submit_answers_error hres with hs | ⟨q0, _, _, _, _, hs⟩ <;> subst hs
          · exact h
          · intro qid
            exact h qid
        | none =>
          obtain ⟨w, q0, q, smid, acc, _, _, hauto, _, _, _, _, _, hs1⟩ :=
            submit_answers_success hres
          subst hs1
          have hsmid : LeaderboardInv smid := by
            rcases autoStart_cases hauto with ⟨_, _, hs⟩ | ⟨_, _, _, _, hs⟩ <;> subst hs
            · exact h
            · intro qid
              exact h qid
          intro qid
          rw [submitApply_leaderboard]
          by_cases hq : qid = p.quiz_id
          · subst hq
            simp only [updNat, if_pos rfl]
            exact ⟨sortByScoreDesc_onePerUser _
              (updatedEntries_onePerUser _ _ _ (hsmid p.quiz_id).1), sortByScoreDesc_sorted _⟩
          · simp only [updNat, if_neg hq]
            exact hsmid qid
  · intro qid
    exact ⟨List.Pairwise.nil, List.Pairwise.nil⟩

/-- C8 witness: a concrete refresh of the empty stored list and one
concrete dispatched operation from the initial state. -/
theorem quiz_c8_witness :
    (OnePerUser ((update_leaderboard 1 "w" 5 stateA).leaderboard 1) ∧
      ScoreSorted ((update_leaderboard 1 "w" 5 stateA).leaderboard 1)) ∧
    LeaderboardInv (execute_operation 0 none (Operation.StartQuiz 1) initialState).1 :=
  ⟨quiz_c8.1 1 "w" 5 stateA List.Pairwise.nil,
    quiz_c8.2.1 0 none (Operation.StartQuiz 1) initialState quiz_c8.2.2⟩

/-- The quiz-sets view written by the success phase of submit_answers:
the quiz record is overwritten with its participant counter bumped. -/
theorem submitApply_quiz_sets (now : Nat) (w : String) (params : SubmitAnswersParams)
    (q : QuizSet) (acc : ScoreAcc) (s1 : QuizState) :
    (submitApply now w params q acc s1).quiz_sets =
      updNat s1.quiz_sets params.quiz_id
        (some { q with participant_count := q.participant_count + 1 }) := by
  unfold submitApply update_leaderboard
  dsimp only
  split <;> rfl

/-- The participant view written by the success phase of
submit_answers: the wallet is appended when absent. -/
theorem submitApply_participants (now : Nat) (w : String) (params : SubmitAnswersParams)
    (q : QuizSet) (acc : ScoreAcc) (s1 : QuizState) :
    (submitApply now w params q acc s1).quiz_participants =
      if w ∈ s1.quiz_participants params.quiz_id then s1.quiz_participants
      else updNat s1.quiz_participants params.quiz_id
        (s1.quiz_participants params.quiz_id ++ [w]) := by
  unfold submitApply update_leaderboard
  dsimp only
  by_cases hm : w ∈ s1.quiz_participants params.quiz_id
  · rw [if_neg (not_not_intro hm), if_pos hm]
  · rw [if_pos hm, if_neg hm]

/-- Overwriting one existing quiz record without changing its
participant counter preserves the participant bookkeeping invariant. -/
theorem participantInv_overwrite (s : QuizState) (qid : Nat) (q q2 : QuizSet)
    (hInv : ParticipantInv s) (hq : s.quiz_sets qid = some q)
    (hcount : q2.participant_count = q.participant_count) :
    ParticipantInv { s with quiz_sets := updNat s.quiz_sets qid (some q2) } := by
  obtain ⟨h1, h2, h3, h4, h5⟩ := hInv
  have hqlt : qid < s.next_quiz_id := by
    by_contra hge
    push_neg at hge
    rw [h5 qid hge] at hq
    cases hq
  refine ⟨?_, h2, h3, h4, ?_⟩
  · intro qid2 q3 hq3
    by_cases he : qid2 = qid
    · subst he
      simp only [updNat, if_pos rfl] at hq3
      injection hq3 with h6
      subst h6
      rw [hcount]
      exact h1 qid2 q hq
    · simp only [updNat, if_neg he] at hq3
      exact h1 qid2 q3 hq3
  · intro qid2 hge
    have hge2 : s.next_quiz_id ≤ qid2 := hge
    by_cases he : qid2 = qid
    · subst he
      exact absurd hqlt (by omega)
    · simp only [updNat, if_neg he]
      exact h5 qid2 hge2

/-- The nickname operation preserves the participant bookkeeping
invariant. -/
theorem set_nickname_inv (now : Nat) (sg : Option String) (p : SetNicknameParams)
    (s : QuizState) (hInv : ParticipantInv s) :
    ParticipantInv (set_nickname now sg p s).1 := by
  obtain ⟨h1, h2, h3, h4, h5⟩ := hInv
  obtain ⟨hqs, hat, hpa, _⟩ := set_nickname_frame now sg p s
  have hnx := set_nickname_next now sg p s
  refine ⟨?_, ?_, ?_, ?_, ?_⟩
  · intro qid q hq
    rw [hqs] at hq
    rw [hpa]
    exact h1 qid q hq
  · intro qid
    rw [hpa]
    exact h2 qid
  · intro qid w hm
    rw [hpa] at hm
    rw [hat]
    exact h3 qid w hm
  · intro qid hge
    rw [hnx] at hge
    rw [hpa]
    exact h4 qid hge
  · intro qid hge
    rw [hnx] at hge
    rw [hqs]
    exact h5 qid hge

/-- The manual start operation preserves the participant bookkeeping
invariant. -/
theorem start_quiz_inv (now : Nat) (sg : Option String) (qid : Nat)
    (s : QuizState) (hInv : ParticipantInv s) :
    ParticipantInv (start_quiz now sg qid s).1 := by
  rcases start_quiz_cases now sg qid s with h1 | ⟨q, hq, h1⟩ <;> rw [h1]
  · exact hInv
  · exact participantInv_overwrite s qid q _ hInv hq rfl

/-- The registration operation preserves the participant bookkeeping
invariant. -/
theorem register_for_quiz_inv (now : Nat) (sg : Option String) (qid : Nat)
    (s : QuizState) (hInv : ParticipantInv s) :
    ParticipantInv (register_for_quiz now sg qid s).1 := by
  rcases register_for_quiz_cases now sg qid s with h1 | ⟨q, w, hq, h1⟩ <;> rw [h1]
  · exact hInv
  · exact participantInv_overwrite s qid q _ hInv hq rfl

/-- A quiz creation that does not fail with the counter-overflow
InternalError preserves the participant bookkeeping invariant. -/
theorem create_quiz_inv (now : Nat) (sg : Option String) (p : CreateQuizParams)
    (s : QuizState) (hInv : ParticipantInv s)
    (hne : (create_quiz now sg p s).2 ≠ some QuizError.InternalError) :
    ParticipantInv (create_quiz now sg p s).1 := by
  obtain ⟨h1, h2, h3, h4, h5⟩ := hInv
  rcases create_quiz_cases now sg p s with ⟨hs, _, _⟩ |
    ⟨qz, hc0, _, hqs, hat, hpa, _, _, hlast⟩
  · rw [hs]
    exact ⟨h1, h2, h3, h4, h5⟩
  · rcases hlast with ⟨_, hnext⟩ | ⟨hr, _⟩
    · refine ⟨?_, ?_, ?_, ?_, ?_⟩
      · intro qid2 q3 hq3
        rw [hqs] at hq3
        rw [hpa]
        by_cases he : qid2 = s.next_quiz_id
        · subst he
          simp only [updNat, if_pos rfl] at hq3
          injection hq3 with h6
          subst h6
          rw [hc0, h4 s.next_quiz_id (Nat.le_refl _)]
          rfl
        · simp only [updNat, if_neg he] at hq3
          exact h1 qid2 q3 hq3
      · intro qid2
        rw [hpa]
        exact h2 qid2
      · intro qid2 w2 hm
        rw [hpa] at hm
        rw [hat]
        exact h3 qid2 w2 hm
      · intro qid2 hge
        rw [hnext] at hge
        rw [hpa]
        exact h4 qid2 (by omega)
      · intro qid2 hge
        rw [hnext] at hge
        rw [hqs]
        have he : qid2 ≠ s.next_quiz_id := by omega
        simp only [updNat, if_neg he]
        exact h5 qid2 (by omega)
    · exact absurd hr hne

/-- The success phase of a submission preserves the participant
bookkeeping invariant, given that the quiz exists and the submitting
identity has no stored attempt yet. -/
theorem submitApply_inv (now : Nat) (w : String) (p : SubmitAnswersParams)
    (q : QuizSet) (acc : ScoreAcc) (smid : QuizState) (hInv : ParticipantInv smid)
    (hq : smid.quiz_sets p.quiz_id = some q)
    (hnone : smid.user_attempts p.quiz_id w = none) :
    ParticipantInv (submitApply now w p q acc smid) := by
  obtain ⟨h1, h2, h3, h4, h5⟩ := hInv
  have hqlt : p.quiz_id < smid.next_quiz_id := by
    by_contra hge
    push_neg at hge
    rw [h5 _ hge] at hq
    cases hq
  have hwP : ¬ w ∈ smid.quiz_participants p.quiz_id := by
    intro hmem
    have h6 := h3 _ _ hmem
    rw [hnone] at h6
    cases h6
  have hqs := submitApply_quiz_sets now w p q acc smid
  have hpa := submitApply_participants now w p q acc smid
  have hat := submitApply_user_attempts now w p q acc smid
  have hnx := submitApply_next now w p q acc smid
  rw [if_neg hwP] at hpa
  refine ⟨?_, ?_, ?_, ?_, ?_⟩
  · intro qid2 q3 hq3
    rw [hqs] at hq3
    rw [hpa]
    by_cases he : qid2 = p.quiz_id
    · subst he
      simp only [updNat, if_pos rfl] at hq3 ⊢
      injection hq3 with h6
      subst h6
      simp [updNat, h1 p.quiz_id q hq]
    · simp only [updNat, if_neg he] at hq3 ⊢
      exact h1 qid2 q3 hq3
  · intro qid2
    rw [hpa]
    by_cases he : qid2 = p.quiz_id
    · subst he
      simp only [updNat, if_pos rfl]
      refine List.nodup_append.mpr ⟨h2 p.quiz_id, List.nodup_singleton _, ?_⟩
      intro a ha hb
      rw [List.mem_singleton.mp hb] at ha
      exact hwP ha
    · simp only [updNat, if_neg he]
      exact h2 qid2
  · intro qid2 w2 hm
    rw [hpa] at hm
    rw [hat]
    by_cases he : qid2 = p.quiz_id
    · subst he
      simp only [updNat, if_pos rfl] at hm
      rcases List.mem_append.mp hm with hm2 | hm2
      · have h6 := h3 _ _ hm2
        unfold updAttempts
        by_cases hw2 : w2 = w
        · simp [hw2]
        · simp only [hw2, and_false, if_false]
          exact h6
      · rw [List.mem_singleton.mp hm2]
        simp [updAttempts]
    · simp only [updNat, if_neg he] at hm
      have h6 := h3 _ _ hm
      unfold updAttempts
      simp only [he, false_and, if_false]
      exact h6
  · intro qid2 hge
    rw [hnx] at hge
    rw [hpa]
    have he : qid2 ≠ p.quiz_id := by omega
    simp only [updNat, if_neg he]
    exact h4 qid2 hge
  · intro qid2 hge
    rw [hnx] at hge
    rw [hqs]
    have he : qid2 ≠ p.quiz_id := by omega
    simp only [updNat, if_neg he]
    exact h5 qid2 hge

/-- Submitting answers preserves the participant bookkeeping
invariant. -/
theorem submit_answers_inv (now : Nat) (sg : Option String) (p : SubmitAnswersParams)
    (s : QuizState) (hInv : ParticipantInv s) :
    ParticipantInv (submit_answers now sg p s).1 := by
  cases hres : submit_answers now sg p s with
  | mk s1 r =>
    show ParticipantInv s1
    cases r with
    | some e =>
      rcases submit_answers_error hres with hs | ⟨q0, hq, _, _, _, hs⟩ <;> subst hs
      · exact hInv
      · exact participantInv_overwrite s p.quiz_id q0 _ hInv hq rfl
    | none =>
      obtain ⟨w, q0, q, smid, acc, _, hq, hauto, _, hnone, _, _, _, hs1⟩ :=
        submit_answers_success hres
      subst hs1
      rcases autoStart_cases hauto with ⟨_, hq2, hsm⟩ | ⟨_, _, _, hq2, hsm⟩
      · rw [hsm] at hnone
        rw [hsm, hq2]
        exact submitApply_inv now w p q0 acc s hInv hq hnone
      · rw [hsm] at hnone
        rw [hsm, hq2]
        refine submitApply_inv now w p { q0 with is_started := true } acc
          (withStarted s p.quiz_id q0) ?_ ?_ hnone
        · exact participantInv_overwrite s p.quiz_id q0 _ hInv hq rfl
        · simp [withStarted, updNat]

/-- C10 counterexample: from a state whose id counter has saturated at
the largest u64 value and which satisfies the claimed invariant with
attempt-backed unique participants, a quiz creation overwrites the
record at the saturated id with a zeroed participant counter while the
one-element participant list persists, so the invariant is broken by an
operation. -/
theorem quiz_c10_counterexample :
    CountMatches stateMax ∧ NodupParticipants stateMax ∧ AttemptBacked stateMax ∧
    (create_quiz 1700000000000000 (some "w") createParams stateMax).2 =
      some QuizError.InternalError ∧
    ((create_quiz 1700000000000000 (some "w") createParams stateMax).1.quiz_sets U64MAX).map
      QuizSet.participant_count = some 0 ∧
    ((create_quiz 1700000000000000 (some "w") createParams stateMax).1.quiz_participants
      U64MAX).length = 1 ∧
    ¬ CountMatches (create_quiz 1700000000000000 (some "w") createParams stateMax).1 := by
  refine ⟨?_, ?_, ?_, by decide, by decide, by decide, ?_⟩
  · intro qid q hq
    by_cases he : qid = U64MAX
    · subst he
      have h0 : stateMax.quiz_sets U64MAX = some quizMax := by decide
      rw [h0] at hq
      injection hq with h2
      subst h2
      have h1 : stateMax.quiz_participants U64MAX = ["w"] := by decide
      rw [h1]
      decide
    · exfalso
      have h0 : stateMax.quiz_sets qid = none := by
        simp [stateMax, initialState, updNat, he]
      rw [h0] at hq
      cases hq
  · intro qid
    by_cases he : qid = U64MAX
    · subst he
      have h1 : stateMax.quiz_participants U64MAX = ["w"] := by decide
      rw [h1]
      exact List.nodup_singleton _
    · have h1 : stateMax.quiz_participants qid = [] := by
        simp [stateMax, initialState, updNat, he]
      rw [h1]
      exact List.nodup_nil
  · intro qid w2 hm
    by_cases he : qid = U64MAX
    · subst he
      have h1 : stateMax.quiz_participants U64MAX = ["w"] := by decide
      rw [h1] at hm
      rw [List.mem_singleton.mp hm]
      decide
    · have h1 : stateMax.quiz_participants qid = [] := by
        simp [stateMax, initialState, updNat, he]
      rw [h1] at hm
      exact absurd hm (List.not_mem_nil _)
  · intro hcm
    have h1 : (create_quiz 1700000000000000 (some "w") createParams stateMax).1.quiz_sets
        U64MAX = some (createdQuizSet 1700000000000000 "w" userW createParams
          1800000000000000 1800000000001000 QuizMode.Public QuizStartMode.Auto U64MAX) := by
      decide
    have h2 := hcm U64MAX _ h1
    have h3 : (create_quiz 1700000000000000 (some "w") createParams stateMax).1.quiz_participants
        U64MAX = ["w"] := by decide
    rw [h3] at h2
    exact absurd h2 (by decide)

/-- C10 amended: the participant-count bookkeeping invariant of the
quiz application, strengthened with the auxiliary facts it needs
(every listed participant has a stored attempt, and participant lists
and quiz records exist only below the id counter), is preserved by
every authority operation and by every delivered cross-chain message
that does not fail with the counter-overflow InternalError; it holds in
the initial state. -/
theorem quiz_c10_amended :
    (∀ now sg op s, ParticipantInv s →
      (execute_operation now sg op s).2 ≠ some QuizError.InternalError →
      ParticipantInv (execute_operation now sg op s).1) ∧
    (∀ now sg msg s, ParticipantInv s →
      (message_result now sg msg s).2 ≠ some QuizError.InternalError →
      ParticipantInv (execute_message now sg msg s)) ∧
    ParticipantInv initialState := by
  refine ⟨?_, ?_, ?_⟩
  · intro now sg op s h hne
    cases op with
    | SetNickname p => exact set_nickname_inv now sg p s h
    | CreateQuiz p => exact create_quiz_inv now sg p s h hne
    | SubmitAnswers p => exact submit_answers_inv now sg p s h
    | StartQuiz qid => exact start_quiz_inv now sg qid s h
    | RegisterForQuiz qid => exact register_for_quiz_inv now sg qid s h
  · intro now sg msg s h hne
    cases msg with
    | SetNickname c p => exact set_nickname_inv now sg p s h
    | CreateQuiz c p => exact create_quiz_inv now sg p s h hne
    | SubmitAnswers c p => exact submit_answers_inv now sg p s h
    | StartQuiz c qid => exact start_quiz_inv now sg qid s h
    | RegisterForQuiz c qid => exact register_for_quiz_inv now sg qid s h
  · refine ⟨?_, ?_, ?_, ?_, ?_⟩
    · intro qid q h
      cases h
    · intro qid
      exact List.nodup_nil
    · intro qid w h
      exact absurd h (List.not_mem_nil _)
    · intro qid h
      rfl
    · intro qid h
      rfl

/-- C10 amended witness: one dispatched operation and one delivered
message on the initial state. -/
theorem quiz_c10_amended_witness :
    ParticipantInv (execute_operation 0 none (Operation.StartQuiz 1) initialState).1 ∧
    ParticipantInv (execute_message 0 none (Message.StartQuiz 7 1) initialState) :=
  ⟨quiz_c10_amended.1 0 none (Operation.StartQuiz 1) initialState quiz_c10_amended.2.2
      (by decide),
    quiz_c10_amended.2.1 0 none (Message.StartQuiz 7 1) initialState quiz_c10_amended.2.2
      (by decide)⟩
